import Mathlib

/-!
mold, input sections (`src/input_sections.cc`).

A shallow embedding of the member functions of `InputSection<E>`: the
constructor with its decompression paths (`read64be`, `do_uncompress`),
`copy_buf`, the relocation classifier `dispatch` with the two index functions
`get_output_type` and `get_sym_type`, and `kill`.

C++ objects reached through pointers or references are kept in explicit
stores: `State.syms` is the heap of `Symbol` objects and `ObjectFile.symbols`
holds pointers (indices) into it, so that two symbol-table slots may alias the
same symbol.  An access the C++ code would perform out of bounds makes the
embedded function return `none`.  What is declared outside this file (header
constants, the relocation passes, zlib, the host's allocator, the layout of
`ElfChdr`) is a parameter of the embedding.  Concurrent callers of `kill` are
modelled by a scheduler that interleaves their steps.
-/

namespace Mold

/-- Named constants that `input_sections.cc` uses but that are declared in
`mold.h` and `elf.h`; the embedding is parametric in their values. -/
structure Consts where
  SHF_WRITE : Nat
  SHF_ALLOC : Nat
  SHF_COMPRESSED : Nat
  SHT_NOBITS : Nat
  STT_FUNC : Nat
  STV_PROTECTED : Nat
  ELFCOMPRESS_ZLIB : Nat
  NEEDS_COPYREL : Nat
  NEEDS_PLT : Nat
  NEEDS_DYNSYM : Nat
  R_DYN : Nat
  R_BASEREL : Nat
  deriving DecidableEq

/-- The enumeration `Action` that fills the 3x4 decision table. -/
inductive Action where
  | NONE
  | ERROR
  | COPYREL
  | PLT
  | DYNREL
  | BASEREL
  deriving DecidableEq

/-- A diagnostic accumulated by `Error(ctx) << ...`.  `copyrel_protected` is the
message of lines 108-110 ("cannot make copy relocation for protected symbol"),
`cannot_be_used` the one of lines 135-137 ("relocation against symbol ... can
not be used; recompile with -fPIE").  The payload is what the message prints:
the relocation's `r_type` and the symbol (as a pointer into the heap). -/
inductive Diag where
  | copyrel_protected (sym : Nat)
  | cannot_be_used (r_type : Nat) (sym : Nat)
  deriving DecidableEq

/-- The part of `ctx.arg` that the file reads. -/
structure Args where
  shared : Bool
  pie : Bool
  z_copyreloc : Bool
  deriving DecidableEq

/-- The linker context: options, the diagnostics reported so far through
`Error(ctx)` (which records the message and lets the caller go on), and the
output buffer `ctx.buf`. -/
structure Context where
  arg : Args
  errors : List Diag
  buf : List Nat
  deriving DecidableEq

/-- A `Symbol<E>`.  `is_absolute` is the value of `sym.is_absolute(ctx)` and
`get_type` the value of `sym.get_type()`: both member functions are declared in
`mold.h`, and neither reads `flags`.  `st_visibility` is
`sym.esym->st_visibility`.  `flags` is the requirement bit set; it is only ever
or-ed with a mask, so no carry can leave the field. -/
structure Symbol where
  is_absolute : Bool
  is_imported : Bool
  get_type : Nat
  st_visibility : Nat
  flags : Nat
  deriving DecidableEq

/-- An `ElfRel<E>` relocation record. -/
structure ElfRel where
  r_offset : Nat
  r_type : Nat
  r_sym : Nat
  deriving DecidableEq

/-- The fields of `ElfShdr<E>` the file reads. -/
structure ElfShdr where
  sh_type : Nat
  sh_flags : Nat
  sh_size : Nat
  sh_offset : Nat
  deriving DecidableEq

/-- An `FdeRecord<E>`: only its liveness flag is touched here. -/
structure FdeRecord where
  is_alive : Bool
  deriving DecidableEq

/-- The owning `ObjectFile<E>`: `symbols` is the vector of `Symbol` pointers,
`num_dynrel` the dynamic-relocation counter, `sections` the section registry
(`none` is `nullptr`).  The counter's integer type is declared in `mold.h`; it
counts relocations of one file and is kept as a natural number. -/
structure ObjectFile where
  symbols : List Nat
  num_dynrel : Nat
  sections : List (Option Nat)
  deriving DecidableEq

/-- The data members of `InputSection<E>`.  `output_shdr` is
`output_section->shdr`.  `rel_types` is parallel to `rels`; its element type is
declared in `mold.h` and is taken wide enough for every code stored in it. -/
structure InputSection where
  shdr : ElfShdr
  name : String
  section_idx : Nat
  contents : List Nat
  output_shdr : ElfShdr
  offset : Nat
  is_alive : Bool
  rels : List ElfRel
  rel_types : List Nat
  fdes : List FdeRecord
  deriving DecidableEq

/-- Everything a member function of one section can read or write: the context,
the symbol heap, the owning file and the section itself (`this`). -/
structure State where
  ctx : Context
  syms : List Symbol
  file : ObjectFile
  sec : InputSection
  deriving DecidableEq

/-- The parameter `Action table[3][4]`. -/
abbrev Table := Fin 3 → Fin 4 → Action

/-- `get_output_type` (lines 70-77). -/
def get_output_type (ctx : Context) : Nat :=
  if ctx.arg.shared then 0
  else if ctx.arg.pie then 1
  else 2

/-- `get_sym_type` (lines 79-88). -/
def get_sym_type (k : Consts) (sym : Symbol) : Nat :=
  if sym.is_absolute then 0
  else if !sym.is_imported then 1
  else if sym.get_type != k.STT_FUNC then 2
  else 3

/-- The read `table[m][c]`; an index outside the 3x4 array has no value. -/
def tableLookup (table : Table) (m c : Nat) : Option Action :=
  if hm : m < 3 then
    if hc : c < 4 then some (table ⟨m, hm⟩ ⟨c, hc⟩) else none
  else none

/-- Lines 93-94: `rel = rels[i]`, `sym = *file.symbols[rel.r_sym]`.  Returns the
relocation, the pointer to the symbol and the symbol it points to. -/
def target (st : State) (i : Nat) : Option (ElfRel × Nat × Symbol) :=
  match st.sec.rels[i]? with
  | none => none
  | some rel =>
    match st.file.symbols[rel.r_sym]? with
    | none => none
    | some p =>
      match st.syms[p]? with
      | none => none
      | some sym => some (rel, p, sym)

/-- Modelled from the spec: the class `Error` is declared in `mold.h`.  Per the
specification a classification error is a link-time diagnostic that accumulates
without terminating the classification, so `Error(ctx) << ...` records the
diagnostic and execution goes on with the next statement. -/
def Error (ctx : Context) (d : Diag) : Context :=
  { ctx with errors := ctx.errors ++ [d] }

/-- Line 95: `is_readonly = !(shdr.sh_flags & SHF_WRITE)`. -/
def is_readonly (k : Consts) (sec : InputSection) : Bool :=
  (sec.shdr.sh_flags &&& k.SHF_WRITE) == 0

/-- The assignment `rel_types[i] = v`. -/
def set_rel_type (st : State) (i v : Nat) : Option State :=
  if i < st.sec.rel_types.length then
    some { st with sec := { st.sec with rel_types := st.sec.rel_types.set i v } }
  else none

/-- The update `sym.flags |= mask` on the symbol object at pointer `p`. -/
def or_flags (st : State) (p : Nat) (sym : Symbol) (mask : Nat) : State :=
  { st with syms := st.syms.set p { sym with flags := sym.flags ||| mask } }

/-- The statement `file.num_dynrel++`. -/
def inc_num_dynrel (st : State) : State :=
  { st with file := { st.file with num_dynrel := st.file.num_dynrel + 1 } }

/-- Lines 135-137, reached by every `break` of the switch. -/
def report (st : State) (rel : ElfRel) (p : Nat) : State :=
  { st with ctx := Error st.ctx (Diag.cannot_be_used rel.r_type p) }

/-- The `switch (action)` of `dispatch` (lines 98-137) for the relocation `rel`
whose symbol `sym` lives at pointer `p`.  The six constructors of `Action` are
all the values the table can hold, so the `default` branch is not reached. -/
def dispatch_switch (k : Consts) (st : State) (rel_type i : Nat)
    (rel : ElfRel) (p : Nat) (sym : Symbol) (action : Action) : Option State :=
  match action with
  | Action.NONE => set_rel_type st i rel_type
  | Action.ERROR => some (report st rel p)
  | Action.COPYREL =>
    if !st.ctx.arg.z_copyreloc then some (report st rel p)
    else
      let st1 : State :=
        if sym.st_visibility == k.STV_PROTECTED then
          { st with ctx := Error st.ctx (Diag.copyrel_protected p) }
        else st
      set_rel_type (or_flags st1 p sym k.NEEDS_COPYREL) i rel_type
  | Action.PLT => set_rel_type (or_flags st p sym k.NEEDS_PLT) i rel_type
  | Action.DYNREL =>
    if is_readonly k st.sec then some (report st rel p)
    else (set_rel_type (or_flags st p sym k.NEEDS_DYNSYM) i k.R_DYN).map inc_num_dynrel
  | Action.BASEREL =>
    if is_readonly k st.sec then some (report st rel p)
    else (set_rel_type st i k.R_BASEREL).map inc_num_dynrel

/-- `InputSection<E>::dispatch` (lines 90-138). -/
def dispatch (k : Consts) (st : State) (table : Table) (rel_type i : Nat) : Option State :=
  match target st i with
  | none => none
  | some (rel, p, sym) =>
    match tableLookup table (get_output_type st.ctx) (get_sym_type k sym) with
    | none => none
    | some action => dispatch_switch k st rel_type i rel p sym action

/-- Output-binary mode as the specification words it: SHARED (0) whenever the
shared option is set, PIE (1) when shared is unset and pie is set, EXEC (2)
otherwise. -/
def spec_mode (a : Args) : Fin 3 :=
  match a.shared, a.pie with
  | true, _ => 0
  | false, true => 1
  | false, false => 2

/-- Symbol class as the specification words it: ABSOLUTE (0) whenever the symbol
is absolute, else LOCAL (1) when it is not imported, else IMPORTED_DATA (2) when
its type is not `STT_FUNC`, else IMPORTED_FUNC (3). -/
def spec_class (k : Consts) (sym : Symbol) : Fin 4 :=
  match sym.is_absolute, sym.is_imported, decide (sym.get_type = k.STT_FUNC) with
  | true, _, _ => 0
  | false, false, _ => 1
  | false, true, false => 2
  | false, true, true => 3

/-- Values of the header constants for the x86-64 target: the ELF constants as
in the gABI, the symbol requirement bits and resolved relocation kinds as in
`mold.h`. -/
def elfConsts : Consts where
  SHF_WRITE := 1
  SHF_ALLOC := 2
  SHF_COMPRESSED := 2048
  SHT_NOBITS := 8
  STT_FUNC := 2
  STV_PROTECTED := 3
  ELFCOMPRESS_ZLIB := 1
  NEEDS_COPYREL := 32
  NEEDS_PLT := 2
  NEEDS_DYNSYM := 64
  R_DYN := 3
  R_BASEREL := 4

/-- A table all of whose twelve cells hold the same action. -/
def constTable (a : Action) : Table := fun _ _ => a

/-- A sample state: one section with two relocations against the two symbols of
its file.  Symbol 0 is an imported data object with visibility `vis` that
already needs a GOT slot (flag bit 0), symbol 1 an imported function.  The
section header flags are `sh_flags`. -/
def sampleState (a : Args) (vis sh_flags : Nat) : State where
  ctx := { arg := a, errors := [], buf := [] }
  syms := [⟨false, true, 1, vis, 1⟩, ⟨false, true, 2, 0, 0⟩]
  file := { symbols := [0, 1], num_dynrel := 5, sections := [some 0] }
  sec :=
    { shdr := { sh_type := 1, sh_flags := sh_flags, sh_size := 4, sh_offset := 0 }
      name := ".data"
      section_idx := 0
      contents := [1, 2, 3, 4]
      output_shdr := { sh_type := 1, sh_flags := sh_flags, sh_size := 4, sh_offset := 64 }
      offset := 0
      is_alive := true
      rels := [⟨0, 1, 0⟩, ⟨2, 4, 1⟩]
      rel_types := [0, 0]
      fdes := [] }

/-! ## `kill`, `copy_buf` and the constructor -/

/-- `InputSection<E>::kill` (lines 140-148), one call run to completion.
`is_alive.exchange(false)` stores `false` and yields the previous value; when
that value is `true` the body stores `false` once more, marks every record of
`fdes` dead and writes `nullptr` to `file.sections[section_idx]`. -/
def kill (st : State) : Option State :=
  let was_alive := st.sec.is_alive
  let st0 : State := { st with sec := { st.sec with is_alive := false } }
  if was_alive then
    if st0.sec.section_idx < st0.file.sections.length then
      some { st0 with
        sec := { st0.sec with
          is_alive := false
          fdes := st0.sec.fdes.map (fun fde => { fde with is_alive := false }) }
        file := { st0.file with
          sections := st0.file.sections.set st0.sec.section_idx none } }
    else none
  else some st0

/-- The call `memcpy(base, src, n)` into the output buffer: byte `j` of `src`
goes to position `base + j`; a write past the end of the buffer has no value. -/
def memcpy (buf : List Nat) (base : Nat) : List Nat → Option (List Nat)
  | [] => some buf
  | b :: bs => if base < buf.length then memcpy (buf.set base b) (base + 1) bs else none

/-- The two relocation-application passes `apply_reloc_alloc(ctx, base)` and
`apply_reloc_nonalloc(ctx, base)`.  They are defined in the target-specific
files, so `copy_buf` is parametric in them. -/
structure RelocPasses where
  apply_reloc_alloc : State → Nat → State
  apply_reloc_nonalloc : State → Nat → State

/-- A record of one call of a relocation-application pass and of the base
position it was given. -/
inductive PassCall where
  | alloc (base : Nat)
  | nonalloc (base : Nat)
  deriving DecidableEq

/-- `InputSection<E>::copy_buf` (lines 54-68).  Returns the final state and the
calls of relocation-application passes it made, in order. -/
def copy_buf (ps : RelocPasses) (k : Consts) (st : State) : Option (State × List PassCall) :=
  if st.sec.shdr.sh_type == k.SHT_NOBITS || st.sec.shdr.sh_size == 0 then
    some (st, [])
  else
    let base := st.sec.output_shdr.sh_offset + st.sec.offset
    match memcpy st.ctx.buf base st.sec.contents with
    | none => none
    | some buf =>
      let st1 : State := { st with ctx := { st.ctx with buf := buf } }
      if (st.sec.shdr.sh_flags &&& k.SHF_ALLOC) != 0 then
        some (ps.apply_reloc_alloc st1 base, [PassCall.alloc base])
      else
        some (ps.apply_reloc_nonalloc st1 base, [PassCall.nonalloc base])

/-- `read64be` (lines 6-11) on the bytes `buf` points to.  Each byte is widened
to `u64`, shifted (a `u64` shift, hence modulo `2^64`) and or-ed in.  Fewer
than eight readable bytes give no value. -/
def read64be : List Nat → Option Nat
  | b0 :: b1 :: b2 :: b3 :: b4 :: b5 :: b6 :: b7 :: _ =>
    some ((b0 <<< 56) % 2 ^ 64 ||| (b1 <<< 48) % 2 ^ 64 |||
          (b2 <<< 40) % 2 ^ 64 ||| (b3 <<< 32) % 2 ^ 64 |||
          (b4 <<< 24) % 2 ^ 64 ||| (b5 <<< 16) % 2 ^ 64 |||
          (b6 <<< 8) % 2 ^ 64 ||| b7)
  | _ => none

/-- The four `Fatal(ctx)` messages of the constructor: "corrupted compressed
section", "unsupported compression type", "uncompress failed" and "uncompress:
invalid size". -/
inductive FatalError where
  | corrupted
  | unsupported
  | uncompress_failed
  | invalid_size
  deriving DecidableEq

/-- The ways a construction ends without a section: a `Fatal(ctx)` message, or
the `std::bad_alloc` that `new u8[size]` (line 19) throws when the buffer
cannot be allocated.  Nothing in the file catches the exception, so it ends the
construction, and the program, without a diagnostic of the linker. -/
inductive CtorFailure where
  | fatal (e : FatalError)
  | bad_alloc
  deriving DecidableEq

/-- Modelled from the spec: the class `Fatal` is declared in `mold.h`.  Per the
specification decompression errors are fatal to the whole link immediately, so
`Fatal(ctx) << ...` ends the construction with the error and nothing after it
is executed. -/
def Fatal {α : Type} (e : FatalError) : Except CtorFailure α :=
  Except.error (CtorFailure.fatal e)

/-- The constant `Z_OK` of `zlib.h`. -/
def Z_OK : Int := 0

/-- What one call `uncompress(buf, &size2, src, n)` of zlib leaves behind: the
return code, the value of `size2` and the bytes of the destination buffer. -/
structure UncompressResult where
  ret : Int
  size2 : Nat
  buf : Nat → Nat

/-- The library function `uncompress`, as a function of the source bytes and of
the destination size passed in through `size2`.  The embedding is parametric
in it. -/
abbrev Codec := List Nat → Nat → UncompressResult

/-- The allocation function of the host: whether `new u8[size]` obtains a
buffer of `size` bytes (otherwise it throws `std::bad_alloc`).  The embedding
is parametric in it. -/
abbrev Allocator := Nat → Bool

/-- The lambda `do_uncompress` (lines 18-26).  Line 19 allocates the buffer of
`size` bytes before the codec is called; the value assigned to `contents` is
the view of `size` bytes on that buffer.  On the build host `unsigned long` is
as wide as `u64`, so `size2 = size` does not truncate. -/
def do_uncompress (alloc : Allocator) (uncompress : Codec) (data : List Nat) (size : Nat) :
    Except CtorFailure (List Nat) :=
  if !alloc size then Except.error CtorFailure.bad_alloc
  else
    let r := uncompress data size
    if r.ret != Z_OK then Fatal FatalError.uncompress_failed
    else if size != r.size2 then Fatal FatalError.invalid_size
    else Except.ok ((List.range size).map r.buf)

/-- The fields of an `ElfChdr<E>` the constructor reads. -/
structure ElfChdr where
  ch_type : Nat
  ch_size : Nat
  deriving DecidableEq

/-- The layout of `ElfChdr<E>`, declared in `elf.h`: `sizeof(ElfChdr<E>)` and
the reading of a header from its `sizeof_ElfChdr` bytes. -/
structure ChdrLayout where
  sizeof_ElfChdr : Nat
  read : List Nat → ElfChdr

/-- The bytes of the string literal "ZLIB". -/
def ZLIB : List Nat := [90, 76, 73, 66]

/-- The test `name.starts_with(".zdebug")`. -/
def is_zdebug (name : String) : Bool :=
  (".zdebug".toList).isPrefixOf name.toList

/-- The constructor `InputSection<E>::InputSection` (lines 13-52).  `data` is the
byte view `file.get_string(ctx, shdr)`.  `init` carries the members the
constructor body does not assign (their default member initializers) and the
header of the output section `get_instance` returns; `contents` starts out as
the empty view.  The outer `none` stands for a read outside `data`. -/
def InputSection_ctor (k : Consts) (lay : ChdrLayout) (alloc : Allocator)
    (uncompress : Codec) (init : InputSection) (data : List Nat) (shdr : ElfShdr)
    (name : String) (section_idx : Nat) : Option (Except CtorFailure InputSection) :=
  let self : InputSection :=
    { init with shdr := shdr, name := name, section_idx := section_idx, contents := [] }
  if is_zdebug name then
    if !(ZLIB.isPrefixOf data) || data.length ≤ 12 then
      some (Fatal FatalError.corrupted)
    else
      match read64be (data.drop 4) with
      | none => none
      | some size =>
        some ((do_uncompress alloc uncompress (data.drop 12) size).map
          (fun c => { self with contents := c }))
  else if (shdr.sh_flags &&& k.SHF_COMPRESSED) != 0 then
    if data.length < lay.sizeof_ElfChdr then
      some (Fatal FatalError.corrupted)
    else
      let hdr := lay.read (data.take lay.sizeof_ElfChdr)
      if hdr.ch_type != k.ELFCOMPRESS_ZLIB then
        some (Fatal FatalError.unsupported)
      else
        some ((do_uncompress alloc uncompress (data.drop lay.sizeof_ElfChdr) hdr.ch_size).map
          (fun c => { self with contents := c }))
  else if shdr.sh_type != k.SHT_NOBITS then
    some (Except.ok { self with contents := data })
  else
    some (Except.ok self)

/-- A run of `dispatch` calls on one section, one `(rel_type, i)` pair per call,
in the order of the list. -/
def dispatch_all (k : Consts) (table : Table) : State → List (Nat × Nat) → Option State
  | st, [] => some st
  | st, (rel_type, i) :: rest =>
    match dispatch k st table rel_type i with
    | none => none
    | some st1 => dispatch_all k table st1 rest

/-- A little-endian unsigned integer. -/
def read_le (bytes : List Nat) : Nat :=
  bytes.foldr (fun b acc => b + 256 * acc) 0

/-- The layout of `Elf64_Chdr` on a little-endian target as in the gABI: 24
bytes, `ch_type` in bytes 0-3 and `ch_size` in bytes 8-15. -/
def elf64Chdr : ChdrLayout where
  sizeof_ElfChdr := 24
  read := fun b => { ch_type := read_le (b.take 4), ch_size := read_le ((b.drop 8).take 8) }

/-- A codec that reports success, reports `produced size` bytes when asked for
`size`, and fills the buffer with the byte 7. -/
def sampleCodec (produced : Nat → Nat) : Codec :=
  fun _ size => { ret := Z_OK, size2 := produced size, buf := fun _ => 7 }

/-- A host on which a block can be allocated if and only if it is smaller than
`2^47` bytes, the size of the user address space of x86-64. -/
def sampleAlloc : Allocator := fun size => decide (size < 2 ^ 47)

/-- The members of a section before the constructor body runs. -/
def sampleInit : InputSection where
  shdr := { sh_type := 0, sh_flags := 0, sh_size := 0, sh_offset := 0 }
  name := ""
  section_idx := 0
  contents := []
  output_shdr := { sh_type := 0, sh_flags := 0, sh_size := 0, sh_offset := 0 }
  offset := 0
  is_alive := true
  rels := []
  rel_types := []
  fdes := []

/-- Index `i` is one `dispatch` can be called with: it has an entry in
`rel_types`, and `rels[i]` refers to a slot of the file's symbol vector that
points to a symbol. -/
def resolvable (st : State) (i : Nat) : Bool :=
  decide (i < st.sec.rel_types.length) && (target st i).isSome

/-- A ".zdebug" payload: the tag "ZLIB", the big-endian size field with value
`size` (below 256) and the compressed stream. -/
def zdebugBytes (size : Nat) (stream : List Nat) : List Nat :=
  ZLIB ++ List.replicate 7 0 ++ [size] ++ stream

/-- A payload that starts with a little-endian `Elf64_Chdr`: `ch_type`,
`ch_size` (both below 256) and `ch_addralign` 1, followed by the compressed
stream. -/
def chdrBytes (ch_type ch_size : Nat) (stream : List Nat) : List Nat :=
  [ch_type] ++ List.replicate 7 0 ++ [ch_size] ++ List.replicate 7 0
    ++ [1] ++ List.replicate 7 0 ++ stream

theorem get_output_type_eq (ctx : Context) :
    get_output_type ctx = (spec_mode ctx.arg).val := by
  unfold get_output_type spec_mode
  cases ctx.arg.shared <;> cases ctx.arg.pie <;> rfl

theorem get_sym_type_eq (k : Consts) (sym : Symbol) :
    get_sym_type k sym = (spec_class k sym).val := by
  unfold get_sym_type spec_class
  cases sym.is_absolute <;> cases sym.is_imported <;>
    by_cases h : sym.get_type = k.STT_FUNC <;> simp [h]
  rfl

theorem tableLookup_fin (table : Table) (m : Fin 3) (c : Fin 4) :
    tableLookup table m.val c.val = some (table m c) := by
  simp [tableLookup, m.isLt, c.isLt]

theorem tableLookup_cell (k : Consts) (ctx : Context) (sym : Symbol) (table : Table) :
    tableLookup table (get_output_type ctx) (get_sym_type k sym)
      = some (table (spec_mode ctx.arg) (spec_class k sym)) := by
  rw [get_output_type_eq, get_sym_type_eq, tableLookup_fin]

theorem target_some {st : State} {i : Nat} {rel : ElfRel} {p : Nat} {sym : Symbol}
    (ht : target st i = some (rel, p, sym)) :
    st.sec.rels[i]? = some rel ∧ st.file.symbols[rel.r_sym]? = some p ∧
      st.syms[p]? = some sym := by
  unfold target at ht
  cases h1 : st.sec.rels[i]? with
  | none => simp [h1] at ht
  | some r =>
    simp only [h1] at ht
    cases h2 : st.file.symbols[r.r_sym]? with
    | none => simp [h2] at ht
    | some q =>
      simp only [h2] at ht
      cases h3 : st.syms[q]? with
      | none => simp [h3] at ht
      | some s =>
        simp only [h3, Option.some.injEq, Prod.mk.injEq] at ht
        obtain ⟨rfl, rfl, rfl⟩ := ht
        exact ⟨rfl, h2, h3⟩

theorem target_ptr_lt {st : State} {i : Nat} {rel : ElfRel} {p : Nat} {sym : Symbol}
    (ht : target st i = some (rel, p, sym)) : p < st.syms.length := by
  obtain ⟨h, _⟩ := List.getElem?_eq_some.mp (target_some ht).2.2
  exact h

theorem dispatch_of_target {k : Consts} {st : State} {table : Table} {rel_type i : Nat}
    {rel : ElfRel} {p : Nat} {sym : Symbol} {a : Action}
    (ht : target st i = some (rel, p, sym))
    (hc : tableLookup table (get_output_type st.ctx) (get_sym_type k sym) = some a) :
    dispatch k st table rel_type i = dispatch_switch k st rel_type i rel p sym a := by
  simp only [dispatch, ht, hc]

theorem is_readonly_false {k : Consts} {sec : InputSection}
    (h : sec.shdr.sh_flags &&& k.SHF_WRITE ≠ 0) : is_readonly k sec = false := by
  simp [is_readonly, h]

theorem is_readonly_true {k : Consts} {sec : InputSection}
    (h : sec.shdr.sh_flags &&& k.SHF_WRITE = 0) : is_readonly k sec = true := by
  simp [is_readonly, h]

/-! ## The table cell `dispatch` acts on -/

/-- C1: the action `dispatch` acts on is `table[m][c]` with `m` the output mode
(0 whenever shared is set, 1 when shared is unset and pie is set, 2 otherwise)
and `c` the symbol class (0 whenever the symbol is absolute, else 1 when it is
not imported, else 2 when its type is not `STT_FUNC`, else 3); `m < 3` and
`c < 4`, so the lookup is always inside the table. -/
theorem dispatch_acts_on_table_cell (k : Consts) (st : State) (table : Table)
    (rel_type i : Nat) :
    get_output_type st.ctx = (spec_mode st.ctx.arg).val ∧
    get_output_type st.ctx < 3 ∧
    (st.ctx.arg.shared = true → get_output_type st.ctx = 0) ∧
    (st.ctx.arg.shared = false → st.ctx.arg.pie = true → get_output_type st.ctx = 1) ∧
    (st.ctx.arg.shared = false → st.ctx.arg.pie = false → get_output_type st.ctx = 2) ∧
    (∀ sym : Symbol,
      get_sym_type k sym = (spec_class k sym).val ∧
      get_sym_type k sym < 4 ∧
      (sym.is_absolute = true → get_sym_type k sym = 0) ∧
      (sym.is_absolute = false → sym.is_imported = false → get_sym_type k sym = 1) ∧
      (sym.is_absolute = false → sym.is_imported = true → sym.get_type ≠ k.STT_FUNC →
        get_sym_type k sym = 2) ∧
      (sym.is_absolute = false → sym.is_imported = true → sym.get_type = k.STT_FUNC →
        get_sym_type k sym = 3) ∧
      tableLookup table (get_output_type st.ctx) (get_sym_type k sym)
        = some (table (spec_mode st.ctx.arg) (spec_class k sym))) ∧
    dispatch k st table rel_type i
      = (target st i).bind (fun t =>
          dispatch_switch k st rel_type i t.1 t.2.1 t.2.2
            (table (spec_mode st.ctx.arg) (spec_class k t.2.2))) := by
  refine ⟨get_output_type_eq _, ?_, ?_, ?_, ?_, ?_, ?_⟩
  · rw [get_output_type_eq]; exact (spec_mode st.ctx.arg).isLt
  · intro h; simp [get_output_type, h]
  · intro h1 h2; simp [get_output_type, h1, h2]
  · intro h1 h2; simp [get_output_type, h1, h2]
  · intro sym
    refine ⟨get_sym_type_eq k sym, ?_, ?_, ?_, ?_, ?_, tableLookup_cell k st.ctx sym table⟩
    · rw [get_sym_type_eq]; exact (spec_class k sym).isLt
    · intro h; simp [get_sym_type, h]
    · intro h1 h2; simp [get_sym_type, h1, h2]
    · intro h1 h2 h3; simp [get_sym_type, h1, h2, h3]
    · intro h1 h2 h3; simp [get_sym_type, h1, h2, h3]
  · cases ht : target st i with
    | none => simp [dispatch, ht]
    | some t =>
      obtain ⟨rel, p, sym⟩ := t
      simp only [dispatch, ht, tableLookup_cell, Option.bind]

/-! ## Effects of the individual actions -/

/-- C2: a DYNREL cell.  In a section with `SHF_WRITE` no error is reported,
`NEEDS_DYNSYM` is or-ed into the symbol's flags, `rel_types[i]` becomes `R_DYN`
and `num_dynrel` grows by exactly one; in a section without `SHF_WRITE` an error
is reported and `rel_types`, the symbols and `num_dynrel` stay as they were. -/
theorem dispatch_DYNREL (k : Consts) (st : State) (table : Table) (rel_type i : Nat)
    (rel : ElfRel) (p : Nat) (sym : Symbol)
    (ht : target st i = some (rel, p, sym))
    (hi : i < st.sec.rel_types.length)
    (hc : tableLookup table (get_output_type st.ctx) (get_sym_type k sym)
      = some Action.DYNREL) :
    (st.sec.shdr.sh_flags &&& k.SHF_WRITE ≠ 0 →
      ∃ st', dispatch k st table rel_type i = some st' ∧
        st'.ctx.errors = st.ctx.errors ∧
        st'.syms = st.syms.set p { sym with flags := sym.flags ||| k.NEEDS_DYNSYM } ∧
        st'.syms[p]? = some { sym with flags := sym.flags ||| k.NEEDS_DYNSYM } ∧
        (∀ b, k.NEEDS_DYNSYM.testBit b = true →
          (sym.flags ||| k.NEEDS_DYNSYM).testBit b = true) ∧
        st'.sec.rel_types = st.sec.rel_types.set i k.R_DYN ∧
        st'.sec.rel_types[i]? = some k.R_DYN ∧
        st'.file.num_dynrel = st.file.num_dynrel + 1) ∧
    (st.sec.shdr.sh_flags &&& k.SHF_WRITE = 0 →
      ∃ st', dispatch k st table rel_type i = some st' ∧
        st'.ctx.errors = st.ctx.errors ++ [Diag.cannot_be_used rel.r_type p] ∧
        st'.syms = st.syms ∧
        st'.sec.rel_types = st.sec.rel_types ∧
        st'.file.num_dynrel = st.file.num_dynrel) := by
  have hp := target_ptr_lt ht
  rw [dispatch_of_target ht hc]
  constructor
  · intro hw
    refine ⟨inc_num_dynrel { or_flags st p sym k.NEEDS_DYNSYM with
      sec := { st.sec with rel_types := st.sec.rel_types.set i k.R_DYN } }, ?_, ?_⟩
    · simp [dispatch_switch, is_readonly_false hw, set_rel_type, or_flags, hi]
    · simp only [inc_num_dynrel, or_flags, List.getElem?_set_self hp,
        List.getElem?_set_self hi, Nat.testBit_lor, Bool.or_eq_true, true_and]
      exact ⟨fun b hb => Or.inr hb, trivial⟩
  · intro hw
    refine ⟨report st rel p, ?_, ?_⟩
    · simp [dispatch_switch, is_readonly_true hw]
    · simp [report, Error]

/-- C3: a BASEREL cell.  In a section with `SHF_WRITE` no error is reported,
`rel_types[i]` becomes `R_BASEREL`, `num_dynrel` grows by exactly one and no
symbol changes; in a section without `SHF_WRITE` an error is reported and
`rel_types`, the symbols and `num_dynrel` stay as they were. -/
theorem dispatch_BASEREL (k : Consts) (st : State) (table : Table) (rel_type i : Nat)
    (rel : ElfRel) (p : Nat) (sym : Symbol)
    (ht : target st i = some (rel, p, sym))
    (hi : i < st.sec.rel_types.length)
    (hc : tableLookup table (get_output_type st.ctx) (get_sym_type k sym)
      = some Action.BASEREL) :
    (st.sec.shdr.sh_flags &&& k.SHF_WRITE ≠ 0 →
      ∃ st', dispatch k st table rel_type i = some st' ∧
        st'.ctx.errors = st.ctx.errors ∧
        st'.syms = st.syms ∧
        st'.sec.rel_types = st.sec.rel_types.set i k.R_BASEREL ∧
        st'.sec.rel_types[i]? = some k.R_BASEREL ∧
        st'.file.num_dynrel = st.file.num_dynrel + 1) ∧
    (st.sec.shdr.sh_flags &&& k.SHF_WRITE = 0 →
      ∃ st', dispatch k st table rel_type i = some st' ∧
        st'.ctx.errors = st.ctx.errors ++ [Diag.cannot_be_used rel.r_type p] ∧
        st'.syms = st.syms ∧
        st'.sec.rel_types = st.sec.rel_types ∧
        st'.file.num_dynrel = st.file.num_dynrel) := by
  rw [dispatch_of_target ht hc]
  constructor
  · intro hw
    refine ⟨inc_num_dynrel { st with
      sec := { st.sec with rel_types := st.sec.rel_types.set i k.R_BASEREL } }, ?_, ?_⟩
    · simp [dispatch_switch, is_readonly_false hw, set_rel_type, hi]
    · simp [inc_num_dynrel, hi]
  · intro hw
    refine ⟨report st rel p, ?_, ?_⟩
    · simp [dispatch_switch, is_readonly_true hw]
    · simp [report, Error]

/-- Witness for C2: a writable section (flags `SHF_ALLOC | SHF_WRITE`) and a
read-only one (`SHF_ALLOC` only), relocation 0, every cell DYNREL. -/
theorem dispatch_DYNREL_witness :
    (∃ st', dispatch elfConsts (sampleState ⟨true, false, true⟩ 0 3)
        (constTable Action.DYNREL) 7 0 = some st' ∧
      st'.ctx.errors = [] ∧ st'.syms[0]? = some ⟨false, true, 1, 0, 65⟩ ∧
      st'.sec.rel_types = [3, 0] ∧ st'.file.num_dynrel = 6) ∧
    (∃ st', dispatch elfConsts (sampleState ⟨true, false, true⟩ 0 2)
        (constTable Action.DYNREL) 7 0 = some st' ∧
      st'.ctx.errors = [Diag.cannot_be_used 1 0] ∧
      st'.syms = (sampleState ⟨true, false, true⟩ 0 2).syms ∧
      st'.sec.rel_types = [0, 0] ∧ st'.file.num_dynrel = 5) := by
  constructor
  · obtain ⟨st', h, he, _, hs, _, hr, _, hn⟩ :=
      (dispatch_DYNREL elfConsts (sampleState ⟨true, false, true⟩ 0 3)
        (constTable Action.DYNREL) 7 0 ⟨0, 1, 0⟩ 0 ⟨false, true, 1, 0, 1⟩
        rfl (by decide) rfl).1 (by decide)
    exact ⟨st', h, he, hs, hr, hn⟩
  · obtain ⟨st', h, he, hs, hr, hn⟩ :=
      (dispatch_DYNREL elfConsts (sampleState ⟨true, false, true⟩ 0 2)
        (constTable Action.DYNREL) 7 0 ⟨0, 1, 0⟩ 0 ⟨false, true, 1, 0, 1⟩
        rfl (by decide) rfl).2 (by decide)
    exact ⟨st', h, he, hs, hr, hn⟩

/-- Witness for C3: the same two sections, every cell BASEREL. -/
theorem dispatch_BASEREL_witness :
    (∃ st', dispatch elfConsts (sampleState ⟨false, true, true⟩ 0 3)
        (constTable Action.BASEREL) 7 1 = some st' ∧
      st'.ctx.errors = [] ∧
      st'.syms = (sampleState ⟨false, true, true⟩ 0 3).syms ∧
      st'.sec.rel_types = [0, 4] ∧ st'.file.num_dynrel = 6) ∧
    (∃ st', dispatch elfConsts (sampleState ⟨false, true, true⟩ 0 2)
        (constTable Action.BASEREL) 7 1 = some st' ∧
      st'.ctx.errors = [Diag.cannot_be_used 4 1] ∧
      st'.syms = (sampleState ⟨false, true, true⟩ 0 2).syms ∧
      st'.sec.rel_types = [0, 0] ∧ st'.file.num_dynrel = 5) := by
  constructor
  · obtain ⟨st', h, he, hs, hr, _, hn⟩ :=
      (dispatch_BASEREL elfConsts (sampleState ⟨false, true, true⟩ 0 3)
        (constTable Action.BASEREL) 7 1 ⟨2, 4, 1⟩ 1 ⟨false, true, 2, 0, 0⟩
        rfl (by decide) rfl).1 (by decide)
    exact ⟨st', h, he, hs, hr, hn⟩
  · obtain ⟨st', h, he, hs, hr, hn⟩ :=
      (dispatch_BASEREL elfConsts (sampleState ⟨false, true, true⟩ 0 2)
        (constTable Action.BASEREL) 7 1 ⟨2, 4, 1⟩ 1 ⟨false, true, 2, 0, 0⟩
        rfl (by decide) rfl).2 (by decide)
    exact ⟨st', h, he, hs, hr, hn⟩

/-- C4, as the code behaves: a COPYREL cell.  With copy relocations enabled
(`z_copyreloc`) `NEEDS_COPYREL` is or-ed into the symbol's flags and
`rel_types[i]` becomes `rel_type`, whatever the visibility of the symbol; no
error is reported for a symbol that is not protected, and exactly the
protected-symbol diagnostic is reported for a protected one.  With copy
relocations disabled one error is reported and the symbols and `rel_types` stay
as they were. -/
theorem dispatch_COPYREL (k : Consts) (st : State) (table : Table) (rel_type i : Nat)
    (rel : ElfRel) (p : Nat) (sym : Symbol)
    (ht : target st i = some (rel, p, sym))
    (hi : i < st.sec.rel_types.length)
    (hc : tableLookup table (get_output_type st.ctx) (get_sym_type k sym)
      = some Action.COPYREL) :
    (st.ctx.arg.z_copyreloc = true →
      ∃ st', dispatch k st table rel_type i = some st' ∧
        st'.syms = st.syms.set p { sym with flags := sym.flags ||| k.NEEDS_COPYREL } ∧
        st'.syms[p]? = some { sym with flags := sym.flags ||| k.NEEDS_COPYREL } ∧
        (∀ b, k.NEEDS_COPYREL.testBit b = true →
          (sym.flags ||| k.NEEDS_COPYREL).testBit b = true) ∧
        st'.sec.rel_types = st.sec.rel_types.set i rel_type ∧
        st'.sec.rel_types[i]? = some rel_type ∧
        st'.file.num_dynrel = st.file.num_dynrel ∧
        (sym.st_visibility ≠ k.STV_PROTECTED → st'.ctx.errors = st.ctx.errors) ∧
        (sym.st_visibility = k.STV_PROTECTED →
          st'.ctx.errors = st.ctx.errors ++ [Diag.copyrel_protected p])) ∧
    (st.ctx.arg.z_copyreloc = false →
      ∃ st', dispatch k st table rel_type i = some st' ∧
        st'.ctx.errors = st.ctx.errors ++ [Diag.cannot_be_used rel.r_type p] ∧
        st'.syms = st.syms ∧
        st'.sec.rel_types = st.sec.rel_types ∧
        st'.file.num_dynrel = st.file.num_dynrel) := by
  have hp := target_ptr_lt ht
  rw [dispatch_of_target ht hc]
  constructor
  · intro hz
    by_cases hv : sym.st_visibility = k.STV_PROTECTED
    · refine ⟨{ or_flags { st with ctx := Error st.ctx (Diag.copyrel_protected p) }
          p sym k.NEEDS_COPYREL with
        sec := { st.sec with rel_types := st.sec.rel_types.set i rel_type } }, ?_, ?_⟩
      · simp [dispatch_switch, hz, hv, set_rel_type, or_flags, hi]
      · simp only [or_flags, Error, List.getElem?_set_self hp, List.getElem?_set_self hi,
          Nat.testBit_lor, Bool.or_eq_true, true_and]
        exact ⟨fun b hb => Or.inr hb, fun h => absurd hv h, fun _ => trivial⟩
    · refine ⟨{ or_flags st p sym k.NEEDS_COPYREL with
        sec := { st.sec with rel_types := st.sec.rel_types.set i rel_type } }, ?_, ?_⟩
      · simp [dispatch_switch, hz, hv, set_rel_type, or_flags, hi]
      · simp only [or_flags, List.getElem?_set_self hp, List.getElem?_set_self hi,
          Nat.testBit_lor, Bool.or_eq_true, true_and]
        exact ⟨fun b hb => Or.inr hb, fun _ => trivial, fun h => absurd h hv⟩
  · intro hz
    refine ⟨report st rel p, ?_, ?_⟩
    · simp [dispatch_switch, hz]
    · simp [report, Error]

/-- Witness for C4 (as the code behaves): copy relocations enabled with a default-visibility
symbol, and copy relocations disabled. -/
theorem dispatch_COPYREL_witness :
    (∃ st', dispatch elfConsts (sampleState ⟨false, false, true⟩ 0 2)
        (constTable Action.COPYREL) 7 0 = some st' ∧
      st'.ctx.errors = [] ∧ st'.syms[0]? = some ⟨false, true, 1, 0, 33⟩ ∧
      st'.sec.rel_types = [7, 0]) ∧
    (∃ st', dispatch elfConsts (sampleState ⟨false, false, false⟩ 0 2)
        (constTable Action.COPYREL) 7 0 = some st' ∧
      st'.ctx.errors = [Diag.cannot_be_used 1 0] ∧
      st'.syms = (sampleState ⟨false, false, false⟩ 0 2).syms ∧
      st'.sec.rel_types = [0, 0]) := by
  constructor
  · obtain ⟨st', h, _, hs, _, hr, _, _, he, _⟩ :=
      (dispatch_COPYREL elfConsts (sampleState ⟨false, false, true⟩ 0 2)
        (constTable Action.COPYREL) 7 0 ⟨0, 1, 0⟩ 0 ⟨false, true, 1, 0, 1⟩
        rfl (by decide) rfl).1 rfl
    exact ⟨st', h, he (by decide), hs, hr⟩
  · obtain ⟨st', h, he, hs, hr, _⟩ :=
      (dispatch_COPYREL elfConsts (sampleState ⟨false, false, false⟩ 0 2)
        (constTable Action.COPYREL) 7 0 ⟨0, 1, 0⟩ 0 ⟨false, true, 1, 0, 1⟩
        rfl (by decide) rfl).2 rfl
    exact ⟨st', h, he, hs, hr⟩

/-- C4, counterexample to the claim as stated: copy relocations are enabled and
symbol 0 has protected visibility, the cell is COPYREL.  The protected-symbol
error is reported, and yet the symbol's flags change from 1 to 33
(`NEEDS_COPYREL` is set) and `rel_types[0]` changes from 0 to 7. -/
theorem copyrel_protected_counterexample :
    (sampleState ⟨false, false, true⟩ 3 2).ctx.arg.z_copyreloc = true ∧
    target (sampleState ⟨false, false, true⟩ 3 2) 0
      = some (⟨0, 1, 0⟩, 0, ⟨false, true, 1, elfConsts.STV_PROTECTED, 1⟩) ∧
    (sampleState ⟨false, false, true⟩ 3 2).sec.rel_types = [0, 0] ∧
    tableLookup (constTable Action.COPYREL)
      (get_output_type (sampleState ⟨false, false, true⟩ 3 2).ctx)
      (get_sym_type elfConsts ⟨false, true, 1, 3, 1⟩) = some Action.COPYREL ∧
    ∃ st', dispatch elfConsts (sampleState ⟨false, false, true⟩ 3 2)
        (constTable Action.COPYREL) 7 0 = some st' ∧
      st'.ctx.errors = [Diag.copyrel_protected 0] ∧
      st'.syms[0]? = some ⟨false, true, 1, 3, 33⟩ ∧
      st'.syms ≠ (sampleState ⟨false, false, true⟩ 3 2).syms ∧
      st'.sec.rel_types = [7, 0] ∧
      st'.sec.rel_types ≠ (sampleState ⟨false, false, true⟩ 3 2).sec.rel_types := by
  refine ⟨rfl, rfl, rfl, rfl, _, rfl, rfl, rfl, by decide, rfl, by decide⟩

/-- C5: a COPYREL cell against a symbol of protected visibility reports an
error, with copy relocations enabled (the protected-symbol diagnostic) as well
as disabled (the cannot-be-used diagnostic): in both configurations exactly one
diagnostic is appended to the ones already reported. -/
theorem protected_copyrel_reports_error (k : Consts) (st : State) (table : Table)
    (rel_type i : Nat) (rel : ElfRel) (p : Nat) (sym : Symbol)
    (ht : target st i = some (rel, p, sym))
    (hi : i < st.sec.rel_types.length)
    (hc : tableLookup table (get_output_type st.ctx) (get_sym_type k sym)
      = some Action.COPYREL)
    (hv : sym.st_visibility = k.STV_PROTECTED) :
    ∃ st', dispatch k st table rel_type i = some st' ∧
      st.ctx.errors.length < st'.ctx.errors.length ∧
      (st.ctx.arg.z_copyreloc = true →
        st'.ctx.errors = st.ctx.errors ++ [Diag.copyrel_protected p]) ∧
      (st.ctx.arg.z_copyreloc = false →
        st'.ctx.errors = st.ctx.errors ++ [Diag.cannot_be_used rel.r_type p]) := by
  rw [dispatch_of_target ht hc]
  cases hz : st.ctx.arg.z_copyreloc with
  | true =>
    refine ⟨{ or_flags { st with ctx := Error st.ctx (Diag.copyrel_protected p) }
        p sym k.NEEDS_COPYREL with
      sec := { st.sec with rel_types := st.sec.rel_types.set i rel_type } }, ?_, ?_⟩
    · simp [dispatch_switch, hz, hv, set_rel_type, or_flags, hi]
    · simp [or_flags, Error]
  | false =>
    refine ⟨report st rel p, ?_, ?_⟩
    · simp [dispatch_switch, hz]
    · simp [report, Error]

/-- Witness for C5: the protected symbol 0, with copy relocations enabled and
with copy relocations disabled. -/
theorem protected_copyrel_reports_error_witness :
    (∃ st', dispatch elfConsts (sampleState ⟨true, false, true⟩ 3 3)
        (constTable Action.COPYREL) 7 0 = some st' ∧
      st'.ctx.errors = [Diag.copyrel_protected 0]) ∧
    (∃ st', dispatch elfConsts (sampleState ⟨true, false, false⟩ 3 3)
        (constTable Action.COPYREL) 7 0 = some st' ∧
      st'.ctx.errors = [Diag.cannot_be_used 1 0]) := by
  constructor
  · obtain ⟨st', h, _, he, _⟩ :=
      protected_copyrel_reports_error elfConsts (sampleState ⟨true, false, true⟩ 3 3)
        (constTable Action.COPYREL) 7 0 ⟨0, 1, 0⟩ 0 ⟨false, true, 1, 3, 1⟩
        rfl (by decide) rfl rfl
    exact ⟨st', h, he rfl⟩
  · obtain ⟨st', h, _, _, he⟩ :=
      protected_copyrel_reports_error elfConsts (sampleState ⟨true, false, false⟩ 3 3)
        (constTable Action.COPYREL) 7 0 ⟨0, 1, 0⟩ 0 ⟨false, true, 1, 3, 1⟩
        rfl (by decide) rfl rfl
    exact ⟨st', h, he rfl⟩

/-- C6: a PLT cell.  No error is reported, `NEEDS_PLT` is or-ed into the
symbol's flags (every bit of `NEEDS_PLT` is set afterwards, every other bit has
the value it had), `rel_types[i]` becomes the caller's `rel_type` and
`num_dynrel` is unchanged.  Nothing is assumed about the section header flags,
the visibility of the symbol or the options. -/
theorem dispatch_PLT (k : Consts) (st : State) (table : Table) (rel_type i : Nat)
    (rel : ElfRel) (p : Nat) (sym : Symbol)
    (ht : target st i = some (rel, p, sym))
    (hi : i < st.sec.rel_types.length)
    (hc : tableLookup table (get_output_type st.ctx) (get_sym_type k sym)
      = some Action.PLT) :
    ∃ st' sym', dispatch k st table rel_type i = some st' ∧
      st'.ctx.errors = st.ctx.errors ∧
      st'.syms = st.syms.set p sym' ∧
      st'.syms[p]? = some sym' ∧
      sym' = { sym with flags := sym.flags ||| k.NEEDS_PLT } ∧
      (∀ b, k.NEEDS_PLT.testBit b = true → sym'.flags.testBit b = true) ∧
      (∀ b, k.NEEDS_PLT.testBit b = false → sym'.flags.testBit b = sym.flags.testBit b) ∧
      st'.sec.rel_types = st.sec.rel_types.set i rel_type ∧
      st'.sec.rel_types[i]? = some rel_type ∧
      st'.file.num_dynrel = st.file.num_dynrel := by
  have hp := target_ptr_lt ht
  rw [dispatch_of_target ht hc]
  refine ⟨{ or_flags st p sym k.NEEDS_PLT with
    sec := { st.sec with rel_types := st.sec.rel_types.set i rel_type } },
    { sym with flags := sym.flags ||| k.NEEDS_PLT }, ?_, ?_⟩
  · simp [dispatch_switch, set_rel_type, or_flags, hi]
  · simp only [or_flags, List.getElem?_set_self hp, List.getElem?_set_self hi,
      Nat.testBit_lor, true_and]
    exact ⟨fun b hb => by simp [hb], fun b hb => by simp [hb], trivial⟩

/-- Witness for C6: a read-only section, a protected symbol, copy relocations
disabled; flag bit 0 of symbol 0 was set before and stays set. -/
theorem dispatch_PLT_witness :
    ∃ st', dispatch elfConsts (sampleState ⟨true, false, false⟩ 3 2)
        (constTable Action.PLT) 7 0 = some st' ∧
      st'.ctx.errors = [] ∧ st'.syms[0]? = some ⟨false, true, 1, 3, 3⟩ ∧
      st'.sec.rel_types = [7, 0] ∧ st'.file.num_dynrel = 5 := by
  obtain ⟨st', sym', h, he, _, hs, hy, _, _, hr, _, hn⟩ :=
    dispatch_PLT elfConsts (sampleState ⟨true, false, false⟩ 3 2)
      (constTable Action.PLT) 7 0 ⟨0, 1, 0⟩ 0 ⟨false, true, 1, 3, 1⟩
      rfl (by decide) rfl
  subst hy
  exact ⟨st', h, he, hs, hr, hn⟩

/-- C7: a NONE cell.  `rel_types[i]` becomes the caller's `rel_type`; the
symbols, the reported errors and `num_dynrel` are unchanged.  Nothing is assumed
about the section header flags, the visibility of the symbol or the options. -/
theorem dispatch_NONE (k : Consts) (st : State) (table : Table) (rel_type i : Nat)
    (rel : ElfRel) (p : Nat) (sym : Symbol)
    (ht : target st i = some (rel, p, sym))
    (hi : i < st.sec.rel_types.length)
    (hc : tableLookup table (get_output_type st.ctx) (get_sym_type k sym)
      = some Action.NONE) :
    ∃ st', dispatch k st table rel_type i = some st' ∧
      st'.sec.rel_types = st.sec.rel_types.set i rel_type ∧
      st'.sec.rel_types[i]? = some rel_type ∧
      st'.syms = st.syms ∧
      st'.ctx.errors = st.ctx.errors ∧
      st'.file.num_dynrel = st.file.num_dynrel := by
  rw [dispatch_of_target ht hc]
  refine ⟨{ st with sec := { st.sec with rel_types := st.sec.rel_types.set i rel_type } },
    ?_, ?_⟩
  · simp [dispatch_switch, set_rel_type, hi]
  · simp [hi]

/-- Witness for C7: relocation 1 of a read-only section. -/
theorem dispatch_NONE_witness :
    ∃ st', dispatch elfConsts (sampleState ⟨false, false, false⟩ 3 2)
        (constTable Action.NONE) 9 1 = some st' ∧
      st'.sec.rel_types = [0, 9] ∧
      st'.syms = (sampleState ⟨false, false, false⟩ 3 2).syms ∧
      st'.ctx.errors = [] ∧ st'.file.num_dynrel = 5 := by
  obtain ⟨st', h, hr, _, hs, he, hn⟩ :=
    dispatch_NONE elfConsts (sampleState ⟨false, false, false⟩ 3 2)
      (constTable Action.NONE) 9 1 ⟨2, 4, 1⟩ 1 ⟨false, true, 2, 0, 0⟩
      rfl (by decide) rfl
  exact ⟨st', h, hr, hs, he, hn⟩

/-- C8: an ERROR cell.  `dispatch` returns, exactly one diagnostic has been
appended to the reported errors, and `rel_types`, the symbols and `num_dynrel`
are unchanged; indeed nothing but the error log differs.  Nothing is assumed
about the section header flags, the visibility of the symbol or the options. -/
theorem dispatch_ERROR (k : Consts) (st : State) (table : Table) (rel_type i : Nat)
    (rel : ElfRel) (p : Nat) (sym : Symbol)
    (ht : target st i = some (rel, p, sym))
    (hc : tableLookup table (get_output_type st.ctx) (get_sym_type k sym)
      = some Action.ERROR) :
    ∃ st', dispatch k st table rel_type i = some st' ∧
      st'.ctx.errors = st.ctx.errors ++ [Diag.cannot_be_used rel.r_type p] ∧
      st'.ctx.errors.length = st.ctx.errors.length + 1 ∧
      st'.sec.rel_types = st.sec.rel_types ∧
      st'.syms = st.syms ∧
      st'.file.num_dynrel = st.file.num_dynrel ∧
      st' = { st with ctx := { st.ctx with errors := st'.ctx.errors } } := by
  rw [dispatch_of_target ht hc]
  refine ⟨report st rel p, ?_, ?_⟩
  · simp [dispatch_switch]
  · simp [report, Error]

/-- Witness for C8: a writable section with copy relocations enabled. -/
theorem dispatch_ERROR_witness :
    ∃ st', dispatch elfConsts (sampleState ⟨true, true, true⟩ 0 3)
        (constTable Action.ERROR) 9 1 = some st' ∧
      st'.ctx.errors = [Diag.cannot_be_used 4 1] ∧
      st'.sec.rel_types = [0, 0] ∧
      st'.syms = (sampleState ⟨true, true, true⟩ 0 3).syms ∧
      st'.file.num_dynrel = 5 := by
  obtain ⟨st', h, he, _, hr, hs, hn, _⟩ :=
    dispatch_ERROR elfConsts (sampleState ⟨true, true, true⟩ 0 3)
      (constTable Action.ERROR) 9 1 ⟨2, 4, 1⟩ 1 ⟨false, true, 2, 0, 0⟩ rfl rfl
  exact ⟨st', h, he, hr, hs, hn⟩

/-! ## Running `dispatch` again -/

theorem target_after {st st1 : State} {i : Nat} {rel : ElfRel} {p : Nat} {sym sym1 : Symbol}
    (ht : target st i = some (rel, p, sym))
    (hrels : st1.sec.rels = st.sec.rels)
    (hsymbols : st1.file.symbols = st.file.symbols)
    (hp : st1.syms[p]? = some sym1) :
    target st1 i = some (rel, p, sym1) := by
  obtain ⟨h1, h2, _⟩ := target_some ht
  simp only [target, hrels, hsymbols, h1, h2, hp]

theorem dispatch_syms (k : Consts) (st : State) (table : Table) (rel_type i : Nat)
    (rel : ElfRel) (p : Nat) (sym : Symbol)
    (ht : target st i = some (rel, p, sym))
    (hi : i < st.sec.rel_types.length) :
    ∃ st', dispatch k st table rel_type i = some st' ∧
      (st'.syms = st.syms ∨
        ∃ m, (m = k.NEEDS_COPYREL ∨ m = k.NEEDS_PLT ∨ m = k.NEEDS_DYNSYM) ∧
          st'.syms = st.syms.set p { sym with flags := sym.flags ||| m }) := by
  have hc := tableLookup_cell k st.ctx sym table
  generalize table (spec_mode st.ctx.arg) (spec_class k sym) = a at hc
  rw [dispatch_of_target ht hc]
  cases a with
  | NONE => simp [dispatch_switch, set_rel_type, hi]
  | ERROR => simp [dispatch_switch, report]
  | COPYREL =>
    cases hz : st.ctx.arg.z_copyreloc with
    | false => simp [dispatch_switch, hz, report]
    | true =>
      by_cases hv : sym.st_visibility = k.STV_PROTECTED
      · refine ⟨{ or_flags { st with ctx := Error st.ctx (Diag.copyrel_protected p) }
            p sym k.NEEDS_COPYREL with
          sec := { st.sec with rel_types := st.sec.rel_types.set i rel_type } }, ?_,
          Or.inr ⟨k.NEEDS_COPYREL, Or.inl rfl, rfl⟩⟩
        simp [dispatch_switch, hz, hv, set_rel_type, or_flags, hi]
      · refine ⟨{ or_flags st p sym k.NEEDS_COPYREL with
          sec := { st.sec with rel_types := st.sec.rel_types.set i rel_type } }, ?_,
          Or.inr ⟨k.NEEDS_COPYREL, Or.inl rfl, rfl⟩⟩
        simp [dispatch_switch, hz, hv, set_rel_type, or_flags, hi]
  | PLT =>
    refine ⟨{ or_flags st p sym k.NEEDS_PLT with
      sec := { st.sec with rel_types := st.sec.rel_types.set i rel_type } }, ?_,
      Or.inr ⟨k.NEEDS_PLT, Or.inr (Or.inl rfl), rfl⟩⟩
    simp [dispatch_switch, set_rel_type, or_flags, hi]
  | DYNREL =>
    cases hw : is_readonly k st.sec with
    | true => simp [dispatch_switch, hw, report]
    | false =>
      refine ⟨inc_num_dynrel { or_flags st p sym k.NEEDS_DYNSYM with
        sec := { st.sec with rel_types := st.sec.rel_types.set i k.R_DYN } }, ?_,
        Or.inr ⟨k.NEEDS_DYNSYM, Or.inr (Or.inr rfl), rfl⟩⟩
      simp [dispatch_switch, hw, set_rel_type, or_flags, inc_num_dynrel, hi]
  | BASEREL =>
    cases hw : is_readonly k st.sec with
    | true => simp [dispatch_switch, hw, report]
    | false => simp [dispatch_switch, hw, set_rel_type, inc_num_dynrel, hi]

/-- C10: symbol requirement flags are set-only under `dispatch`.  Whatever the
table cell and the outcome, the call returns with the same symbol heap except
for flag words: every symbol is still there with the same attributes, every
flag bit that was set on a symbol before the call is set after it, and a bit
that was clear before and is set after belongs to the symbol referenced by
relocation `i` and is a bit of `NEEDS_COPYREL`, `NEEDS_PLT` or `NEEDS_DYNSYM`. -/
theorem dispatch_flags_set_only (k : Consts) (st : State) (table : Table)
    (rel_type i : Nat) (rel : ElfRel) (p : Nat) (sym : Symbol)
    (ht : target st i = some (rel, p, sym))
    (hi : i < st.sec.rel_types.length) :
    ∃ st', dispatch k st table rel_type i = some st' ∧
      st'.syms.length = st.syms.length ∧
      ∀ q s, st.syms[q]? = some s →
        ∃ s', st'.syms[q]? = some s' ∧
          s'.is_absolute = s.is_absolute ∧ s'.is_imported = s.is_imported ∧
          s'.get_type = s.get_type ∧ s'.st_visibility = s.st_visibility ∧
          (∀ b, s.flags.testBit b = true → s'.flags.testBit b = true) ∧
          (∀ b, s.flags.testBit b = false → s'.flags.testBit b = true →
            q = p ∧ (k.NEEDS_COPYREL.testBit b = true ∨ k.NEEDS_PLT.testBit b = true ∨
              k.NEEDS_DYNSYM.testBit b = true)) := by
  obtain ⟨st', hd, hsyms⟩ := dispatch_syms k st table rel_type i rel p sym ht hi
  refine ⟨st', hd, ?_, ?_⟩
  · rcases hsyms with h | ⟨m, _, h⟩ <;> simp [h]
  · intro q s hq
    rcases hsyms with h | ⟨m, hm, h⟩
    · refine ⟨s, by rw [h]; exact hq, rfl, rfl, rfl, rfl, fun _ hb => hb, ?_⟩
      intro b h0 h1
      rw [h0] at h1
      exact absurd h1 (by decide)
    · by_cases hqp : q = p
      · subst hqp
        have hs : s = sym := by
          have := (target_some ht).2.2
          rw [hq] at this
          exact Option.some.inj this
        subst hs
        refine ⟨{ s with flags := s.flags ||| m }, ?_, rfl, rfl, rfl, rfl, ?_, ?_⟩
        · rw [h]
          exact List.getElem?_set_self (target_ptr_lt ht)
        · intro b hb
          simp [Nat.testBit_lor, hb]
        · intro b h0 h1
          refine ⟨rfl, ?_⟩
          have hmb : m.testBit b = true := by
            simpa [Nat.testBit_lor, h0] using h1
          rcases hm with rfl | rfl | rfl
          · exact Or.inl hmb
          · exact Or.inr (Or.inl hmb)
          · exact Or.inr (Or.inr hmb)
      · refine ⟨s, ?_, rfl, rfl, rfl, rfl, fun _ hb => hb, ?_⟩
        · rw [h, List.getElem?_set_ne (Ne.symm hqp)]
          exact hq
        · intro b h0 h1
          rw [h0] at h1
          exact absurd h1 (by decide)

/-- Witness for C10: a PLT cell on relocation 0; the other symbol (pointer 1)
keeps its flag word 0 and symbol 0 keeps the bit it had. -/
theorem dispatch_flags_set_only_witness :
    ∃ st', dispatch elfConsts (sampleState ⟨true, false, true⟩ 0 3)
        (constTable Action.PLT) 7 0 = some st' ∧
      st'.syms.length = 2 ∧
      (∃ s', st'.syms[0]? = some s' ∧ s'.flags.testBit 0 = true) := by
  obtain ⟨st', h, hl, hq⟩ :=
    dispatch_flags_set_only elfConsts (sampleState ⟨true, false, true⟩ 0 3)
      (constTable Action.PLT) 7 0 ⟨0, 1, 0⟩ 0 ⟨false, true, 1, 0, 1⟩ rfl (by decide)
  obtain ⟨s', hs, _, _, _, _, hb, _⟩ := hq 0 ⟨false, true, 1, 0, 1⟩ rfl
  exact ⟨st', h, hl, s', hs, hb 0 (by decide)⟩

/-! ## `kill` -/

theorem kill_dead {st : State} (h : st.sec.is_alive = false) : kill st = some st := by
  obtain ⟨ctx, syms, file, sec⟩ := st
  obtain ⟨shdr, name, idx, contents, out, offset, alive, rels, rel_types, fdes⟩ := sec
  simp only at h
  subst h
  rfl

/-- C11: `kill` on a live section (whose `section_idx` is a slot of the file's
registry) sets the liveness flag to false, marks every unwind record dead,
clears registry slot `section_idx` and leaves every other slot as it was; on
the result a further `kill` changes nothing.  `kill` on a dead section returns
the state unchanged, and no call ever yields a live section. -/
theorem kill_once (st : State) :
    (st.sec.is_alive = true → st.sec.section_idx < st.file.sections.length →
      ∃ st', kill st = some st' ∧
        st'.sec.is_alive = false ∧
        st'.sec.fdes.length = st.sec.fdes.length ∧
        (∀ fde ∈ st'.sec.fdes, fde.is_alive = false) ∧
        st'.file.sections.length = st.file.sections.length ∧
        st'.file.sections[st.sec.section_idx]? = some none ∧
        (∀ j, j ≠ st.sec.section_idx → st'.file.sections[j]? = st.file.sections[j]?) ∧
        kill st' = some st' ∧
        (kill st).bind kill = kill st) ∧
    (st.sec.is_alive = false → kill st = some st ∧ (kill st).bind kill = kill st) ∧
    (∀ st', kill st = some st' → st'.sec.is_alive = false) := by
  refine ⟨?_, ?_, ?_⟩
  · intro ha hi
    have hk : kill st = some { st with
        sec := { st.sec with
          is_alive := false
          fdes := st.sec.fdes.map (fun fde => { fde with is_alive := false }) }
        file := { st.file with
          sections := st.file.sections.set st.sec.section_idx none } } := by
      simp [kill, ha, hi]
    refine ⟨_, hk, rfl, by simp, ?_, by simp, ?_, ?_, by exact kill_dead rfl, ?_⟩
    · intro fde hf
      simp only [List.mem_map] at hf
      obtain ⟨f, _, rfl⟩ := hf
      rfl
    · simp [hi]
    · intro j hj
      simp [List.getElem?_set_ne (Ne.symm hj)]
    · rw [hk, Option.bind]
      exact kill_dead rfl
  · intro hd
    rw [kill_dead hd]
    exact ⟨rfl, kill_dead hd⟩
  · intro st' h
    cases ha : st.sec.is_alive with
    | false =>
      rw [kill_dead ha] at h
      cases h
      exact ha
    | true =>
      by_cases hi : st.sec.section_idx < st.file.sections.length
      · simp [kill, ha, hi] at h
        subst h
        rfl
      · simp [kill, ha, hi] at h

/-- Witness for C11: the live sample section with one unwind record and a
registry of two slots; the first `kill` clears slot 0, the second changes
nothing. -/
theorem kill_once_witness :
    ∃ st', kill { sampleState ⟨true, false, true⟩ 0 3 with
        file := { symbols := [0, 1], num_dynrel := 5, sections := [some 0, some 1] }
        sec := { (sampleState ⟨true, false, true⟩ 0 3).sec with fdes := [⟨true⟩] } }
        = some st' ∧
      st'.sec.is_alive = false ∧ st'.sec.fdes = [⟨false⟩] ∧
      st'.file.sections = [none, some 1] ∧ kill st' = some st' := by
  obtain ⟨st', h, ha, _, _, _, _, _, hk, _⟩ :=
    (kill_once { sampleState ⟨true, false, true⟩ 0 3 with
        file := { symbols := [0, 1], num_dynrel := 5, sections := [some 0, some 1] }
        sec := { (sampleState ⟨true, false, true⟩ 0 3).sec with fdes := [⟨true⟩] } }).1
      rfl (by decide)
  have e := h
  simp only [kill] at e
  cases e
  exact ⟨_, h, ha, rfl, rfl, hk⟩

/-! ## Concurrent callers of `kill` -/

theorem memcpy_some (src : List Nat) : ∀ (buf : List Nat) (base : Nat),
    base + src.length ≤ buf.length → ∃ out, memcpy buf base src = some out := by
  induction src with
  | nil => intro buf base _; exact ⟨buf, rfl⟩
  | cons b bs ih =>
    intro buf base h
    simp only [List.length_cons] at h
    have hb : base < buf.length := by omega
    simp only [memcpy, hb, if_true]
    apply ih
    simp only [List.length_set]
    omega

theorem memcpy_spec (src : List Nat) : ∀ (buf : List Nat) (base : Nat) (out : List Nat),
    memcpy buf base src = some out →
      out.length = buf.length ∧
      (∀ j, j < src.length → out[base + j]? = src[j]?) ∧
      (∀ j, j < base ∨ base + src.length ≤ j → out[j]? = buf[j]?) := by
  induction src with
  | nil =>
    intro buf base out h
    simp only [memcpy, Option.some.injEq] at h
    subst h
    exact ⟨rfl, fun j hj => absurd hj (by simp), fun _ _ => rfl⟩
  | cons b bs ih =>
    intro buf base out h
    by_cases hb : base < buf.length
    · simp only [memcpy, hb, if_true] at h
      obtain ⟨hl, hin, hout⟩ := ih _ _ _ h
      refine ⟨by simpa using hl, ?_, ?_⟩
      · intro j hj
        cases j with
        | zero =>
          rw [Nat.add_zero, hout base (Or.inl (Nat.lt_succ_self base))]
          simp [hb]
        | succ j =>
          have := hin j (by simpa using hj)
          rw [show base + (j + 1) = base + 1 + j by omega]
          simpa using this
      · intro j hj
        simp only [List.length_cons] at hj
        rw [hout j (by omega)]
        exact List.getElem?_set_ne (by omega)
    · simp [memcpy, hb] at h

/-- C13: for a section of type NOBITS or of header size 0, `copy_buf` returns
at once: the state, and with it every byte of the output buffer, is unchanged
and no relocation-application pass is called, whatever the passes, the
contents, the flags and the offset of the section are. -/
theorem copy_buf_noop (ps : RelocPasses) (k : Consts) (st : State)
    (h : st.sec.shdr.sh_type = k.SHT_NOBITS ∨ st.sec.shdr.sh_size = 0) :
    ∃ st' calls, copy_buf ps k st = some (st', calls) ∧
      st'.ctx.buf = st.ctx.buf ∧ calls = [] ∧ st' = st := by
  refine ⟨st, [], ?_, rfl, rfl, rfl⟩
  rcases h with h | h <;> simp [copy_buf, h]

/-- Witness for C13: a section of header size 0 with four content bytes, and
passes that would overwrite the whole buffer if they were called. -/
theorem copy_buf_noop_witness :
    copy_buf ⟨fun s _ => { s with ctx := { s.ctx with buf := [] } },
        fun s _ => { s with ctx := { s.ctx with buf := [] } }⟩ elfConsts
      { sampleState ⟨true, false, true⟩ 0 3 with
        ctx := { arg := ⟨true, false, true⟩, errors := [], buf := List.replicate 70 0 }
        sec := { (sampleState ⟨true, false, true⟩ 0 3).sec with
          shdr := { sh_type := 1, sh_flags := 3, sh_size := 0, sh_offset := 0 } } }
      = some ({ sampleState ⟨true, false, true⟩ 0 3 with
        ctx := { arg := ⟨true, false, true⟩, errors := [], buf := List.replicate 70 0 }
        sec := { (sampleState ⟨true, false, true⟩ 0 3).sec with
          shdr := { sh_type := 1, sh_flags := 3, sh_size := 0, sh_offset := 0 } } }, []) := by
  obtain ⟨st', calls, h, _, hc, hs⟩ :=
    copy_buf_noop ⟨fun s _ => { s with ctx := { s.ctx with buf := [] } },
        fun s _ => { s with ctx := { s.ctx with buf := [] } }⟩ elfConsts
      { sampleState ⟨true, false, true⟩ 0 3 with
        ctx := { arg := ⟨true, false, true⟩, errors := [], buf := List.replicate 70 0 }
        sec := { (sampleState ⟨true, false, true⟩ 0 3).sec with
          shdr := { sh_type := 1, sh_flags := 3, sh_size := 0, sh_offset := 0 } } }
      (Or.inr rfl)
  rw [h, hc, hs]

/-- C14: for a section that is neither NOBITS nor of header size 0 and whose
target range lies inside the output buffer, the raw copy succeeds and makes
byte `output_section.sh_offset + offset + j` of the buffer equal to
`contents[j]` for every `j < contents.size()`, leaving the buffer's length and
every byte outside that range unchanged; `copy_buf` then makes exactly one call
of a relocation-application pass, on the state after the copy and with that
same base position: the allocated pass if `SHF_ALLOC` is set, the non-allocated
pass otherwise. -/
theorem copy_buf_copies (ps : RelocPasses) (k : Consts) (st : State)
    (hn : st.sec.shdr.sh_type ≠ k.SHT_NOBITS) (hs : st.sec.shdr.sh_size ≠ 0)
    (hb : st.sec.output_shdr.sh_offset + st.sec.offset + st.sec.contents.length
      ≤ st.ctx.buf.length) :
    ∃ buf, memcpy st.ctx.buf (st.sec.output_shdr.sh_offset + st.sec.offset)
        st.sec.contents = some buf ∧
      buf.length = st.ctx.buf.length ∧
      (∀ j, j < st.sec.contents.length →
        buf[st.sec.output_shdr.sh_offset + st.sec.offset + j]? = st.sec.contents[j]?) ∧
      (∀ j, j < st.sec.output_shdr.sh_offset + st.sec.offset ∨
          st.sec.output_shdr.sh_offset + st.sec.offset + st.sec.contents.length ≤ j →
        buf[j]? = st.ctx.buf[j]?) ∧
      (st.sec.shdr.sh_flags &&& k.SHF_ALLOC ≠ 0 →
        copy_buf ps k st
          = some (ps.apply_reloc_alloc { st with ctx := { st.ctx with buf := buf } }
              (st.sec.output_shdr.sh_offset + st.sec.offset),
            [PassCall.alloc (st.sec.output_shdr.sh_offset + st.sec.offset)])) ∧
      (st.sec.shdr.sh_flags &&& k.SHF_ALLOC = 0 →
        copy_buf ps k st
          = some (ps.apply_reloc_nonalloc { st with ctx := { st.ctx with buf := buf } }
              (st.sec.output_shdr.sh_offset + st.sec.offset),
            [PassCall.nonalloc (st.sec.output_shdr.sh_offset + st.sec.offset)])) := by
  obtain ⟨buf, hm⟩ := memcpy_some st.sec.contents st.ctx.buf _ hb
  obtain ⟨hl, hin, hout⟩ := memcpy_spec _ _ _ _ hm
  refine ⟨buf, hm, hl, hin, hout, ?_, ?_⟩
  · intro ha
    simp [copy_buf, hn, hs, hm, ha]
  · intro ha
    simp [copy_buf, hn, hs, hm, ha]

/-- Witness for C14: the sample section (flags `SHF_ALLOC | SHF_WRITE`, contents
1 2 3 4, output offset 64) and a zeroed buffer of 70 bytes; the passes leave
the state alone, so the result shows the copy. -/
theorem copy_buf_copies_witness :
    ∃ st', copy_buf ⟨fun s _ => s, fun s _ => s⟩ elfConsts
        { sampleState ⟨true, false, true⟩ 0 3 with
          ctx := { arg := ⟨true, false, true⟩, errors := [], buf := List.replicate 70 0 } }
        = some (st', [PassCall.alloc 64]) ∧
      st'.ctx.buf = List.replicate 64 0 ++ [1, 2, 3, 4, 0, 0] := by
  obtain ⟨buf, hm, _, _, _, ha, _⟩ :=
    copy_buf_copies ⟨fun s _ => s, fun s _ => s⟩ elfConsts
      { sampleState ⟨true, false, true⟩ 0 3 with
        ctx := { arg := ⟨true, false, true⟩, errors := [], buf := List.replicate 70 0 } }
      (by decide) (by decide) (by decide)
  have e := hm
  simp only [sampleState, memcpy] at e
  refine ⟨_, ha (by decide), ?_⟩
  simp only [List.length_replicate, List.length_set] at e
  simp at e
  subst e
  decide

/-! ## The constructor -/

theorem do_uncompress_bad_alloc {alloc : Allocator} {u : Codec} {data : List Nat}
    {size : Nat} (ha : alloc size = false) :
    do_uncompress alloc u data size = Except.error CtorFailure.bad_alloc := by
  simp [do_uncompress, ha]

theorem do_uncompress_failed {alloc : Allocator} {u : Codec} {data : List Nat} {size : Nat}
    (ha : alloc size = true) (h : (u data size).ret ≠ Z_OK) :
    do_uncompress alloc u data size
      = Except.error (CtorFailure.fatal FatalError.uncompress_failed) := by
  simp [do_uncompress, ha, h, Fatal]

theorem do_uncompress_invalid {alloc : Allocator} {u : Codec} {data : List Nat} {size : Nat}
    (ha : alloc size = true) (h : (u data size).ret = Z_OK)
    (h2 : (u data size).size2 ≠ size) :
    do_uncompress alloc u data size
      = Except.error (CtorFailure.fatal FatalError.invalid_size) := by
  simp [do_uncompress, ha, h, Fatal, Ne.symm h2]

theorem do_uncompress_ok {alloc : Allocator} {u : Codec} {data : List Nat} {size : Nat}
    (ha : alloc size = true) (h : (u data size).ret = Z_OK)
    (h2 : (u data size).size2 = size) :
    do_uncompress alloc u data size = Except.ok ((List.range size).map (u data size).buf) := by
  simp [do_uncompress, ha, h, h2]

theorem do_uncompress_cases (alloc : Allocator) (u : Codec) (data : List Nat) (size : Nat) :
    (alloc size = false ∧
      do_uncompress alloc u data size = Except.error CtorFailure.bad_alloc) ∨
    (alloc size = true ∧ (u data size).ret ≠ Z_OK ∧
      do_uncompress alloc u data size
        = Except.error (CtorFailure.fatal FatalError.uncompress_failed)) ∨
    (alloc size = true ∧ (u data size).ret = Z_OK ∧ (u data size).size2 ≠ size ∧
      do_uncompress alloc u data size
        = Except.error (CtorFailure.fatal FatalError.invalid_size)) ∨
    (alloc size = true ∧ (u data size).ret = Z_OK ∧ (u data size).size2 = size ∧
      do_uncompress alloc u data size
        = Except.ok ((List.range size).map (u data size).buf)) := by
  cases ha : alloc size with
  | false => exact Or.inl ⟨rfl, do_uncompress_bad_alloc ha⟩
  | true =>
    by_cases h : (u data size).ret = Z_OK
    · by_cases h2 : (u data size).size2 = size
      · exact Or.inr (Or.inr (Or.inr ⟨rfl, h, h2, do_uncompress_ok ha h h2⟩))
      · exact Or.inr (Or.inr (Or.inl ⟨rfl, h, h2, do_uncompress_invalid ha h h2⟩))
    · exact Or.inr (Or.inl ⟨rfl, h, do_uncompress_failed ha h⟩)

theorem do_uncompress_ok_iff (alloc : Allocator) (u : Codec) (data : List Nat) (size : Nat)
    (c : List Nat) :
    do_uncompress alloc u data size = Except.ok c ↔
      alloc size = true ∧ (u data size).ret = Z_OK ∧ (u data size).size2 = size ∧
        c = (List.range size).map (u data size).buf := by
  rcases do_uncompress_cases alloc u data size with
    ⟨h, e⟩ | ⟨_, h, e⟩ | ⟨_, _, h, e⟩ | ⟨h0, h1, h2, e⟩
  · rw [e]
    constructor
    · intro x; cases x
    · intro x; rw [h] at x; exact absurd x.1 (by decide)
  · rw [e]
    constructor
    · intro x; cases x
    · intro x; exact absurd x.2.1 h
  · rw [e]
    constructor
    · intro x; cases x
    · intro x; exact absurd x.2.2.1 h
  · rw [e]
    constructor
    · intro x
      cases x
      exact ⟨h0, h1, h2, rfl⟩
    · intro x
      rw [x.2.2.2]

theorem map_ok_contents {r : Except CtorFailure (List Nat)} {f : List Nat → InputSection}
    (hf : ∀ c, (f c).contents = c) {sec : InputSection}
    (h : r.map f = Except.ok sec) : r = Except.ok sec.contents := by
  cases r with
  | error e => cases h
  | ok c =>
    simp only [Except.map, Except.ok.injEq] at h
    subst h
    rw [hf]

theorem read64be_some (l : List Nat) (h : 8 ≤ l.length) : ∃ v, read64be l = some v := by
  rcases l with _ | ⟨b0, _ | ⟨b1, _ | ⟨b2, _ | ⟨b3, _ | ⟨b4, _ | ⟨b5, _ | ⟨b6, _ | ⟨b7, r⟩⟩⟩⟩⟩⟩⟩⟩
  all_goals first
    | exact ⟨_, rfl⟩
    | (simp at h; try omega)

theorem ctor_zdebug {k : Consts} {lay : ChdrLayout} {alloc : Allocator} {u : Codec}
    {init : InputSection} {data : List Nat} {shdr : ElfShdr} {name : String} {idx : Nat} {size : Nat}
    (hz : is_zdebug name = true) (hm : ZLIB.isPrefixOf data = true)
    (hl : 12 < data.length) (hr : read64be (data.drop 4) = some size) :
    InputSection_ctor k lay alloc u init data shdr name idx
      = some ((do_uncompress alloc u (data.drop 12) size).map (fun c =>
          { init with shdr := shdr, name := name, section_idx := idx, contents := c })) := by
  simp [InputSection_ctor, hz, hm, Nat.not_le.mpr hl, hr]

theorem ctor_chdr {k : Consts} {lay : ChdrLayout} {alloc : Allocator} {u : Codec}
    {init : InputSection} {data : List Nat} {shdr : ElfShdr} {name : String} {idx : Nat}
    (hz : is_zdebug name = false) (hc : shdr.sh_flags &&& k.SHF_COMPRESSED ≠ 0)
    (hl : lay.sizeof_ElfChdr ≤ data.length)
    (ht : (lay.read (data.take lay.sizeof_ElfChdr)).ch_type = k.ELFCOMPRESS_ZLIB) :
    InputSection_ctor k lay alloc u init data shdr name idx
      = some ((do_uncompress alloc u (data.drop lay.sizeof_ElfChdr)
          (lay.read (data.take lay.sizeof_ElfChdr)).ch_size).map (fun c =>
          { init with shdr := shdr, name := name, section_idx := idx, contents := c })) := by
  simp [InputSection_ctor, hz, hc, Nat.not_lt.mpr hl, ht]

/-- C15, as the code behaves: for a section whose name starts with ".zdebug",
construction fails with the corrupted-compressed-section error exactly when the
payload does not start with "ZLIB" or is not longer than 12 bytes.  When the
payload starts with the tag and is longer than 12 bytes, the size field (bytes
4 to 11) is read inside the payload and the outcome is that of `do_uncompress`
on the bytes from 12 onward: construction succeeds if the buffer of the
declared size can be allocated and the codec returns `Z_OK` and reports the
declared size; it ends with `std::bad_alloc` if the buffer cannot be allocated;
and if construction does not succeed, the allocation failed, the codec failed
or the codec reported another size. -/
theorem zdebug_header_check (k : Consts) (lay : ChdrLayout) (alloc : Allocator) (u : Codec)
    (init : InputSection) (data : List Nat) (shdr : ElfShdr) (name : String) (idx : Nat)
    (hz : is_zdebug name = true) :
    (InputSection_ctor k lay alloc u init data shdr name idx
        = some (Except.error (CtorFailure.fatal FatalError.corrupted)) ↔
      (ZLIB.isPrefixOf data = false ∨ data.length ≤ 12)) ∧
    (ZLIB.isPrefixOf data = true → 12 < data.length →
      ∃ size, read64be (data.drop 4) = some size ∧ 4 + 8 ≤ data.length ∧
        InputSection_ctor k lay alloc u init data shdr name idx
          = some ((do_uncompress alloc u (data.drop 12) size).map (fun c =>
              { init with shdr := shdr, name := name, section_idx := idx, contents := c })) ∧
        (alloc size = true → (u (data.drop 12) size).ret = Z_OK →
          (u (data.drop 12) size).size2 = size →
          InputSection_ctor k lay alloc u init data shdr name idx
            = some (Except.ok { init with
                shdr := shdr, name := name, section_idx := idx,
                contents := (List.range size).map (u (data.drop 12) size).buf })) ∧
        (alloc size = false →
          InputSection_ctor k lay alloc u init data shdr name idx
            = some (Except.error CtorFailure.bad_alloc)) ∧
        ((∀ sec, InputSection_ctor k lay alloc u init data shdr name idx
            ≠ some (Except.ok sec)) →
          alloc size = false ∨ (u (data.drop 12) size).ret ≠ Z_OK ∨
            (u (data.drop 12) size).size2 ≠ size)) := by
  have valid : ZLIB.isPrefixOf data = true → 12 < data.length →
      ∃ size, read64be (data.drop 4) = some size ∧
        InputSection_ctor k lay alloc u init data shdr name idx
          = some ((do_uncompress alloc u (data.drop 12) size).map (fun c =>
              { init with shdr := shdr, name := name, section_idx := idx, contents := c })) := by
    intro hm hl
    obtain ⟨size, hr⟩ := read64be_some (data.drop 4) (by simp; omega)
    exact ⟨size, hr, ctor_zdebug hz hm hl hr⟩
  constructor
  · constructor
    · intro h
      by_contra hne
      simp only [not_or, Bool.not_eq_false, Nat.not_le] at hne
      obtain ⟨size, _, hc⟩ := valid hne.1 hne.2
      rw [hc] at h
      rcases do_uncompress_cases alloc u (data.drop 12) size with
        ⟨_, e⟩ | ⟨_, _, e⟩ | ⟨_, _, _, e⟩ | ⟨_, _, _, e⟩ <;>
        simp [e, Except.map] at h
    · intro h
      rcases h with h | h
      · simp [InputSection_ctor, hz, h, Fatal]
      · simp [InputSection_ctor, hz, h, Fatal]
  · intro hm hl
    obtain ⟨size, hr, hc⟩ := valid hm hl
    refine ⟨size, hr, by omega, hc, ?_, ?_, ?_⟩
    · intro h0 h1 h2
      rw [hc, do_uncompress_ok h0 h1 h2]
      rfl
    · intro h0
      rw [hc, do_uncompress_bad_alloc h0]
      rfl
    · intro hno
      rcases do_uncompress_cases alloc u (data.drop 12) size with
        ⟨h, _⟩ | ⟨_, h, _⟩ | ⟨_, _, h, _⟩ | ⟨_, _, _, e⟩
      · exact Or.inl h
      · exact Or.inr (Or.inl h)
      · exact Or.inr (Or.inr h)
      · exact absurd (by rw [hc, e]; rfl) (hno _)

/-- Witness for C15 (as the code behaves): the section `.zdebug_info` with the
payload "ZLIB", the size field 2 and one byte of stream, a host that can
allocate two bytes and a codec that produces the declared size: the
construction succeeds with two content bytes. -/
theorem zdebug_header_check_witness :
    InputSection_ctor elfConsts elf64Chdr sampleAlloc (sampleCodec id) sampleInit
        (zdebugBytes 2 [1])
        { sh_type := 1, sh_flags := 0, sh_size := 13, sh_offset := 0 } ".zdebug_info" 4
      = some (Except.ok { sampleInit with
          shdr := { sh_type := 1, sh_flags := 0, sh_size := 13, sh_offset := 0 }
          name := ".zdebug_info", section_idx := 4, contents := [7, 7] }) := by
  obtain ⟨size, hr, _, _, hok, _, _⟩ :=
    (zdebug_header_check elfConsts elf64Chdr sampleAlloc (sampleCodec id) sampleInit
      (zdebugBytes 2 [1])
      { sh_type := 1, sh_flags := 0, sh_size := 13, sh_offset := 0 } ".zdebug_info" 4
      (by decide)).2 (by decide) (by decide)
  have e : size = 2 := by
    have : read64be (List.drop 4 (zdebugBytes 2 [1])) = some 2 := by
      decide
    rw [this] at hr
    exact (Option.some.inj hr).symm
  subst e
  exact hok (by decide) rfl rfl

/-- C15, counterexample to the claim as stated: the section `.zdebug_info` has a
payload of 13 bytes that starts with "ZLIB" and whose size field holds eight
bytes 255, so the declared size is `2^64 - 1`.  The header check passes and the
codec, were it called, would return `Z_OK` and report the declared size; but no
host can allocate `2^64 - 1` bytes, line 19 throws `std::bad_alloc` before the
codec is called, and the construction does not succeed. -/
theorem zdebug_bad_alloc_counterexample :
    is_zdebug ".zdebug_info" = true ∧
    ZLIB.isPrefixOf (ZLIB ++ List.replicate 8 255 ++ [1]) = true ∧
    12 < (ZLIB ++ List.replicate 8 255 ++ [1]).length ∧
    read64be (List.drop 4 (ZLIB ++ List.replicate 8 255 ++ [1])) = some (2 ^ 64 - 1) ∧
    (sampleCodec id (List.drop 12 (ZLIB ++ List.replicate 8 255 ++ [1])) (2 ^ 64 - 1)).ret
      = Z_OK ∧
    (sampleCodec id (List.drop 12 (ZLIB ++ List.replicate 8 255 ++ [1])) (2 ^ 64 - 1)).size2
      = 2 ^ 64 - 1 ∧
    sampleAlloc (2 ^ 64 - 1) = false ∧
    InputSection_ctor elfConsts elf64Chdr sampleAlloc (sampleCodec id) sampleInit
        (ZLIB ++ List.replicate 8 255 ++ [1])
        { sh_type := 1, sh_flags := 0, sh_size := 13, sh_offset := 0 } ".zdebug_info" 4
      = some (Except.error CtorFailure.bad_alloc) := by
  have hr : read64be (List.drop 4 (ZLIB ++ List.replicate 8 255 ++ [1]))
      = some (2 ^ 64 - 1) := by decide
  refine ⟨by decide, by decide, by decide, hr, rfl, rfl, by decide, ?_⟩
  rw [ctor_zdebug (by decide) (by decide) (by decide) hr,
    do_uncompress_bad_alloc (by decide)]
  rfl

/-- C16, as the code behaves: for a section with `SHF_COMPRESSED` set whose name
does not start with ".zdebug", a payload shorter than `sizeof(ElfChdr<E>)`
makes construction fail with the corrupted-compressed-section error, whatever
reading the header would give; and in a payload at least that long a
compression-type code other than `ELFCOMPRESS_ZLIB` makes construction fail with
the unsupported-compression-type error.  In neither case is a section
constructed. -/
theorem chdr_checks (k : Consts) (lay : ChdrLayout) (alloc : Allocator) (u : Codec)
    (init : InputSection) (data : List Nat) (shdr : ElfShdr) (name : String) (idx : Nat)
    (hz : is_zdebug name = false) (hc : shdr.sh_flags &&& k.SHF_COMPRESSED ≠ 0) :
    (data.length < lay.sizeof_ElfChdr →
      ∀ read : List Nat → ElfChdr,
        InputSection_ctor k ⟨lay.sizeof_ElfChdr, read⟩ alloc u init data shdr name idx
          = some (Except.error (CtorFailure.fatal FatalError.corrupted))) ∧
    (lay.sizeof_ElfChdr ≤ data.length →
      (lay.read (data.take lay.sizeof_ElfChdr)).ch_type ≠ k.ELFCOMPRESS_ZLIB →
        InputSection_ctor k lay alloc u init data shdr name idx
          = some (Except.error (CtorFailure.fatal FatalError.unsupported))) ∧
    ((data.length < lay.sizeof_ElfChdr ∨
        (lay.read (data.take lay.sizeof_ElfChdr)).ch_type ≠ k.ELFCOMPRESS_ZLIB) →
      ∀ sec, InputSection_ctor k lay alloc u init data shdr name idx
        ≠ some (Except.ok sec)) := by
  have short : data.length < lay.sizeof_ElfChdr →
      ∀ read : List Nat → ElfChdr,
        InputSection_ctor k ⟨lay.sizeof_ElfChdr, read⟩ alloc u init data shdr name idx
          = some (Except.error (CtorFailure.fatal FatalError.corrupted)) := by
    intro hl read
    simp [InputSection_ctor, hz, hc, hl, Fatal]
  have badtype : lay.sizeof_ElfChdr ≤ data.length →
      (lay.read (data.take lay.sizeof_ElfChdr)).ch_type ≠ k.ELFCOMPRESS_ZLIB →
        InputSection_ctor k lay alloc u init data shdr name idx
          = some (Except.error (CtorFailure.fatal FatalError.unsupported)) := by
    intro hl ht
    simp [InputSection_ctor, hz, hc, Nat.not_lt.mpr hl, ht, Fatal]
  refine ⟨short, badtype, ?_⟩
  intro h sec
  by_cases hl : data.length < lay.sizeof_ElfChdr
  · rw [short hl lay.read]
    simp
  · rcases h with h | h
    · exact absurd h hl
    · rw [badtype (Nat.not_lt.mp hl) h]
      simp

/-- Witness for C16 (as the code behaves): the section `.debug_info` with
`SHF_COMPRESSED`, once with a payload of 3 bytes and once with a 24-byte header
whose compression-type code is 2. -/
theorem chdr_checks_witness :
    InputSection_ctor elfConsts elf64Chdr sampleAlloc (sampleCodec id) sampleInit [1, 0, 0]
        { sh_type := 1, sh_flags := 2048, sh_size := 3, sh_offset := 0 } ".debug_info" 4
      = some (Except.error (CtorFailure.fatal FatalError.corrupted)) ∧
    InputSection_ctor elfConsts elf64Chdr sampleAlloc (sampleCodec id) sampleInit
        (chdrBytes 2 2 [9])
        { sh_type := 1, sh_flags := 2048, sh_size := 25, sh_offset := 0 } ".debug_info" 4
      = some (Except.error (CtorFailure.fatal FatalError.unsupported)) :=
  ⟨(chdr_checks elfConsts elf64Chdr sampleAlloc (sampleCodec id) sampleInit [1, 0, 0]
      { sh_type := 1, sh_flags := 2048, sh_size := 3, sh_offset := 0 } ".debug_info" 4
      (by decide) (by decide)).1 (by decide) elf64Chdr.read,
   (chdr_checks elfConsts elf64Chdr sampleAlloc (sampleCodec id) sampleInit
      (chdrBytes 2 2 [9])
      { sh_type := 1, sh_flags := 2048, sh_size := 25, sh_offset := 0 } ".debug_info" 4
      (by decide) (by decide)).2.1 (by decide) (by decide)⟩

/-- C16, counterexample to the claim as stated: the section `.zdebug_str` has
`SHF_COMPRESSED` set.  With a 24-byte payload whose first four bytes, read as
the compression-type code, are not `ELFCOMPRESS_ZLIB`, construction succeeds
(no unsupported-compression-type error); with a 13-byte payload, shorter than
the 24-byte header, construction succeeds as well (no corrupted-section
error).  The name takes both through the ".zdebug" branch. -/
theorem compressed_zdebug_counterexample :
    (2048 &&& elfConsts.SHF_COMPRESSED ≠ 0) ∧
    elf64Chdr.sizeof_ElfChdr = 24 ∧
    (elf64Chdr.read (List.take 24
        (zdebugBytes 2 (1 :: List.replicate 11 0)))).ch_type
      ≠ elfConsts.ELFCOMPRESS_ZLIB ∧
    InputSection_ctor elfConsts elf64Chdr sampleAlloc (sampleCodec id) sampleInit
        (zdebugBytes 2 (1 :: List.replicate 11 0))
        { sh_type := 1, sh_flags := 2048, sh_size := 24, sh_offset := 0 } ".zdebug_str" 4
      = some (Except.ok { sampleInit with
          shdr := { sh_type := 1, sh_flags := 2048, sh_size := 24, sh_offset := 0 }
          name := ".zdebug_str", section_idx := 4, contents := [7, 7] }) ∧
    InputSection_ctor elfConsts elf64Chdr sampleAlloc (sampleCodec id) sampleInit
        (zdebugBytes 2 [1])
        { sh_type := 1, sh_flags := 2048, sh_size := 13, sh_offset := 0 } ".zdebug_str" 4
      = some (Except.ok { sampleInit with
          shdr := { sh_type := 1, sh_flags := 2048, sh_size := 13, sh_offset := 0 }
          name := ".zdebug_str", section_idx := 4, contents := [7, 7] }) := by
  refine ⟨by decide, rfl, by decide, ?_, ?_⟩
  · rw [ctor_zdebug (by decide) (by decide) (by decide)
      (show read64be _ = some 2 by decide), do_uncompress_ok (by decide) rfl rfl]
    rfl
  · rw [ctor_zdebug (by decide) (by decide) (by decide)
      (show read64be _ = some 2 by decide), do_uncompress_ok (by decide) rfl rfl]
    rfl

theorem ctor_zdebug_ok {k : Consts} {lay : ChdrLayout} {alloc : Allocator} {u : Codec}
    {init : InputSection} {data : List Nat} {shdr : ElfShdr} {name : String} {idx : Nat}
    {sec : InputSection} (hz : is_zdebug name = true)
    (h : InputSection_ctor k lay alloc u init data shdr name idx = some (Except.ok sec)) :
    ∃ size, read64be (data.drop 4) = some size ∧ alloc size = true ∧
      (u (data.drop 12) size).ret = Z_OK ∧ (u (data.drop 12) size).size2 = size ∧
      sec.contents.length = size := by
  by_cases hv : ZLIB.isPrefixOf data = true ∧ 12 < data.length
  · obtain ⟨size, hr⟩ := read64be_some (data.drop 4) (by simp; omega)
    rw [ctor_zdebug hz hv.1 hv.2 hr, Option.some.injEq] at h
    obtain ⟨h0, h1, h2, h3⟩ :=
      (do_uncompress_ok_iff alloc u _ size _).mp (map_ok_contents (fun _ => rfl) h)
    exact ⟨size, hr, h0, h1, h2, by rw [h3]; simp⟩
  · exfalso
    have : ZLIB.isPrefixOf data = false ∨ data.length ≤ 12 := by
      by_cases hm : ZLIB.isPrefixOf data = true
      · exact Or.inr (Nat.not_lt.mp (fun hl => hv ⟨hm, hl⟩))
      · exact Or.inl (Bool.eq_false_iff.mpr hm)
    rcases this with h' | h' <;> simp [InputSection_ctor, hz, h', Fatal] at h

theorem ctor_chdr_ok {k : Consts} {lay : ChdrLayout} {alloc : Allocator} {u : Codec}
    {init : InputSection} {data : List Nat} {shdr : ElfShdr} {name : String} {idx : Nat}
    {sec : InputSection}
    (hz : is_zdebug name = false) (hc : shdr.sh_flags &&& k.SHF_COMPRESSED ≠ 0)
    (h : InputSection_ctor k lay alloc u init data shdr name idx = some (Except.ok sec)) :
    alloc (lay.read (data.take lay.sizeof_ElfChdr)).ch_size = true ∧
      (u (data.drop lay.sizeof_ElfChdr)
        (lay.read (data.take lay.sizeof_ElfChdr)).ch_size).ret = Z_OK ∧
      (u (data.drop lay.sizeof_ElfChdr)
        (lay.read (data.take lay.sizeof_ElfChdr)).ch_size).size2
        = (lay.read (data.take lay.sizeof_ElfChdr)).ch_size ∧
      sec.contents.length = (lay.read (data.take lay.sizeof_ElfChdr)).ch_size := by
  by_cases hv : lay.sizeof_ElfChdr ≤ data.length ∧
      (lay.read (data.take lay.sizeof_ElfChdr)).ch_type = k.ELFCOMPRESS_ZLIB
  · rw [ctor_chdr hz hc hv.1 hv.2, Option.some.injEq] at h
    obtain ⟨h0, h1, h2, h3⟩ :=
      (do_uncompress_ok_iff alloc u _ _ _).mp (map_ok_contents (fun _ => rfl) h)
    exact ⟨h0, h1, h2, by rw [h3]; simp⟩
  · exfalso
    by_cases hl : data.length < lay.sizeof_ElfChdr
    · simp [InputSection_ctor, hz, hc, hl, Fatal] at h
    · have ht : (lay.read (data.take lay.sizeof_ElfChdr)).ch_type ≠ k.ELFCOMPRESS_ZLIB :=
        fun ht => hv ⟨Nat.not_lt.mp hl, ht⟩
      simp [InputSection_ctor, hz, hc, hl, ht, Fatal] at h

/-- C17: for a compressed section of either form, any host allocator and any
codec, construction succeeds only if the buffer was allocated, the codec
returned `Z_OK` and it reported exactly the declared uncompressed size; the
contents then are the declared number of bytes of the buffer.  A codec that
returns `Z_OK` and reports any other size never yields contents, and once it
has been called (the buffer of line 19 was allocated) the outcome is the
invalid-size error, in the lambda and, behind a valid header, in the
constructor. -/
theorem uncompress_size_checked (k : Consts) (lay : ChdrLayout) (alloc : Allocator)
    (u : Codec) (init : InputSection) (data : List Nat) (shdr : ElfShdr) (name : String)
    (idx : Nat) :
    (∀ stream size,
      (∀ c, do_uncompress alloc u stream size = Except.ok c ↔
        alloc size = true ∧ (u stream size).ret = Z_OK ∧ (u stream size).size2 = size ∧
          c = (List.range size).map (u stream size).buf) ∧
      (∀ c, do_uncompress alloc u stream size = Except.ok c → c.length = size) ∧
      ((u stream size).ret = Z_OK → (u stream size).size2 ≠ size →
        ∀ c, do_uncompress alloc u stream size ≠ Except.ok c) ∧
      (alloc size = true → (u stream size).ret = Z_OK → (u stream size).size2 ≠ size →
        do_uncompress alloc u stream size
          = Except.error (CtorFailure.fatal FatalError.invalid_size)) ∧
      (alloc size = true → (u stream size).ret ≠ Z_OK →
        do_uncompress alloc u stream size
          = Except.error (CtorFailure.fatal FatalError.uncompress_failed)) ∧
      (alloc size = false →
        do_uncompress alloc u stream size = Except.error CtorFailure.bad_alloc)) ∧
    (is_zdebug name = true →
      (∀ sec, InputSection_ctor k lay alloc u init data shdr name idx
          = some (Except.ok sec) →
        ∃ size, read64be (data.drop 4) = some size ∧ alloc size = true ∧
          (u (data.drop 12) size).ret = Z_OK ∧ (u (data.drop 12) size).size2 = size ∧
          sec.contents.length = size) ∧
      (∀ size, ZLIB.isPrefixOf data = true → 12 < data.length →
        read64be (data.drop 4) = some size → alloc size = true →
        (u (data.drop 12) size).ret = Z_OK → (u (data.drop 12) size).size2 ≠ size →
        InputSection_ctor k lay alloc u init data shdr name idx
          = some (Except.error (CtorFailure.fatal FatalError.invalid_size)))) ∧
    (is_zdebug name = false → shdr.sh_flags &&& k.SHF_COMPRESSED ≠ 0 →
      (∀ sec, InputSection_ctor k lay alloc u init data shdr name idx
          = some (Except.ok sec) →
        alloc (lay.read (data.take lay.sizeof_ElfChdr)).ch_size = true ∧
          (u (data.drop lay.sizeof_ElfChdr)
            (lay.read (data.take lay.sizeof_ElfChdr)).ch_size).ret = Z_OK ∧
          (u (data.drop lay.sizeof_ElfChdr)
            (lay.read (data.take lay.sizeof_ElfChdr)).ch_size).size2
            = (lay.read (data.take lay.sizeof_ElfChdr)).ch_size ∧
          sec.contents.length = (lay.read (data.take lay.sizeof_ElfChdr)).ch_size) ∧
      (lay.sizeof_ElfChdr ≤ data.length →
        (lay.read (data.take lay.sizeof_ElfChdr)).ch_type = k.ELFCOMPRESS_ZLIB →
        alloc (lay.read (data.take lay.sizeof_ElfChdr)).ch_size = true →
        (u (data.drop lay.sizeof_ElfChdr)
            (lay.read (data.take lay.sizeof_ElfChdr)).ch_size).ret = Z_OK →
        (u (data.drop lay.sizeof_ElfChdr)
            (lay.read (data.take lay.sizeof_ElfChdr)).ch_size).size2
            ≠ (lay.read (data.take lay.sizeof_ElfChdr)).ch_size →
        InputSection_ctor k lay alloc u init data shdr name idx
          = some (Except.error (CtorFailure.fatal FatalError.invalid_size)))) := by
  refine ⟨?_, ?_, ?_⟩
  · intro stream size
    refine ⟨do_uncompress_ok_iff alloc u stream size, ?_, ?_,
      fun h0 h h2 => do_uncompress_invalid h0 h h2,
      fun h0 h => do_uncompress_failed h0 h, fun h0 => do_uncompress_bad_alloc h0⟩
    · intro c hc
      rw [((do_uncompress_ok_iff alloc u stream size c).mp hc).2.2.2]
      simp
    · intro _ h2 c hc
      exact h2 ((do_uncompress_ok_iff alloc u stream size c).mp hc).2.2.1
  · intro hz
    refine ⟨fun sec h => ctor_zdebug_ok hz h, ?_⟩
    intro size hm hl hr h0 h1 h2
    rw [ctor_zdebug hz hm hl hr, do_uncompress_invalid h0 h1 h2]
    rfl
  · intro hz hc
    refine ⟨fun sec h => ctor_chdr_ok hz hc h, ?_⟩
    intro hl ht h0 h1 h2
    rw [ctor_chdr hz hc hl ht, do_uncompress_invalid h0 h1 h2]
    rfl

/-- Witness for C17: behind a valid 24-byte header declaring 3 bytes, on a host
that can allocate them, a codec that produces the declared size gives three
content bytes and a codec that reports one byte more gives the invalid-size
error. -/
theorem uncompress_size_checked_witness :
    (∃ sec, InputSection_ctor elfConsts elf64Chdr sampleAlloc (sampleCodec id) sampleInit
        (chdrBytes 1 3 [9])
        { sh_type := 1, sh_flags := 2048, sh_size := 25, sh_offset := 0 } ".debug_info" 4
      = some (Except.ok sec) ∧ sec.contents.length = 3) ∧
    InputSection_ctor elfConsts elf64Chdr sampleAlloc (sampleCodec Nat.succ) sampleInit
        (chdrBytes 1 3 [9])
        { sh_type := 1, sh_flags := 2048, sh_size := 25, sh_offset := 0 } ".debug_info" 4
      = some (Except.error (CtorFailure.fatal FatalError.invalid_size)) := by
  constructor
  · refine ⟨_, rfl, ?_⟩
    exact (((uncompress_size_checked elfConsts elf64Chdr sampleAlloc (sampleCodec id)
      sampleInit (chdrBytes 1 3 [9])
      { sh_type := 1, sh_flags := 2048, sh_size := 25, sh_offset := 0 } ".debug_info" 4).2.2
      (by decide) (by decide)).1 _ rfl).2.2.2
  · exact ((uncompress_size_checked elfConsts elf64Chdr sampleAlloc (sampleCodec Nat.succ)
      sampleInit (chdrBytes 1 3 [9])
      { sh_type := 1, sh_flags := 2048, sh_size := 25, sh_offset := 0 } ".debug_info" 4).2.2
      (by decide) (by decide)).2 (by decide) (by decide) (by decide) rfl (by decide)

/-- C18, as the code behaves: construction of a section that is not compressed
(name not starting with ".zdebug", `SHF_COMPRESSED` clear) always succeeds; if
its type is NOBITS the contents are empty, otherwise the contents are the raw
byte view, whose length is `sh_size` when the view's length is.  After a
successful construction of a compressed section, of any type, the length of the
contents is the declared uncompressed size. -/
theorem contents_size (k : Consts) (lay : ChdrLayout) (alloc : Allocator) (u : Codec)
    (init : InputSection) (data : List Nat) (shdr : ElfShdr) (name : String) (idx : Nat) :
    (is_zdebug name = false → shdr.sh_flags &&& k.SHF_COMPRESSED = 0 →
      ∃ sec, InputSection_ctor k lay alloc u init data shdr name idx = some (Except.ok sec) ∧
        sec.shdr = shdr ∧
        (shdr.sh_type = k.SHT_NOBITS → sec.contents = []) ∧
        (shdr.sh_type ≠ k.SHT_NOBITS → sec.contents = data ∧
          (data.length = shdr.sh_size → sec.contents.length = sec.shdr.sh_size))) ∧
    (is_zdebug name = true →
      ∀ sec, InputSection_ctor k lay alloc u init data shdr name idx = some (Except.ok sec) →
        ∃ size, read64be (data.drop 4) = some size ∧ sec.contents.length = size) ∧
    (is_zdebug name = false → shdr.sh_flags &&& k.SHF_COMPRESSED ≠ 0 →
      ∀ sec, InputSection_ctor k lay alloc u init data shdr name idx = some (Except.ok sec) →
        sec.contents.length = (lay.read (data.take lay.sizeof_ElfChdr)).ch_size) := by
  refine ⟨?_, ?_, ?_⟩
  · intro hz hc
    by_cases ht : shdr.sh_type = k.SHT_NOBITS
    · refine ⟨{ init with shdr := shdr, name := name, section_idx := idx, contents := [] },
        ?_, rfl, fun _ => rfl, fun h => absurd ht h⟩
      simp [InputSection_ctor, hz, hc, ht]
    · refine ⟨{ init with shdr := shdr, name := name, section_idx := idx, contents := data },
        ?_, rfl, fun h => absurd h ht, fun _ => ⟨rfl, fun h => h⟩⟩
      simp [InputSection_ctor, hz, hc, ht]
  · intro hz sec h
    obtain ⟨size, hr, _, _, _, hl⟩ := ctor_zdebug_ok hz h
    exact ⟨size, hr, hl⟩
  · intro hz hc sec h
    exact (ctor_chdr_ok hz hc h).2.2.2

/-- Witness for C18 (as the code behaves): an uncompressed `.data` section of
four bytes, and a NOBITS section `.bss`. -/
theorem contents_size_witness :
    (∃ sec, InputSection_ctor elfConsts elf64Chdr sampleAlloc (sampleCodec id) sampleInit
        [1, 2, 3, 4]
        { sh_type := 1, sh_flags := 3, sh_size := 4, sh_offset := 0 } ".data" 2
      = some (Except.ok sec) ∧ sec.contents = [1, 2, 3, 4] ∧
        sec.contents.length = sec.shdr.sh_size) ∧
    (∃ sec, InputSection_ctor elfConsts elf64Chdr sampleAlloc (sampleCodec id) sampleInit []
        { sh_type := 8, sh_flags := 3, sh_size := 16, sh_offset := 0 } ".bss" 3
      = some (Except.ok sec) ∧ sec.contents = []) := by
  constructor
  · obtain ⟨sec, h, _, _, hd⟩ :=
      (contents_size elfConsts elf64Chdr sampleAlloc (sampleCodec id) sampleInit [1, 2, 3, 4]
        { sh_type := 1, sh_flags := 3, sh_size := 4, sh_offset := 0 } ".data" 2).1
        (by decide) (by decide)
    obtain ⟨hc, hl⟩ := hd (by decide)
    exact ⟨sec, h, hc, hl rfl⟩
  · obtain ⟨sec, h, _, hn, _⟩ :=
      (contents_size elfConsts elf64Chdr sampleAlloc (sampleCodec id) sampleInit []
        { sh_type := 8, sh_flags := 3, sh_size := 16, sh_offset := 0 } ".bss" 3).1
        (by decide) (by decide)
    exact ⟨sec, h, hn rfl⟩

/-- C18, counterexample to the claim as stated: the section `.debug_info` of
type PROGBITS has `SHF_COMPRESSED` set and a raw byte view of `sh_size` = 25
bytes whose header declares 3 uncompressed bytes.  Construction succeeds and the
contents have length 3, not 25. -/
theorem compressed_contents_counterexample :
    List.length (chdrBytes 1 3 [9])
      = 25 ∧
    (1 : Nat) ≠ elfConsts.SHT_NOBITS ∧
    ∃ sec, InputSection_ctor elfConsts elf64Chdr sampleAlloc (sampleCodec id) sampleInit
        (chdrBytes 1 3 [9])
        { sh_type := 1, sh_flags := 2048, sh_size := 25, sh_offset := 0 } ".debug_info" 4
      = some (Except.ok sec) ∧
      sec.shdr.sh_size = 25 ∧ sec.contents = [7, 7, 7] ∧
      sec.contents.length ≠ sec.shdr.sh_size := by
  refine ⟨rfl, by decide, _, rfl, rfl, rfl, by decide⟩

/-! ## `read64be` -/

theorem or_eq_add_of_lt (i a b : Nat) (hb : b < 2 ^ i) : a * 2 ^ i ||| b = a * 2 ^ i + b := by
  rw [Nat.mul_comm]
  exact (Nat.mul_add_lt_is_or hb a).symm

theorem read64be_value (b0 b1 b2 b3 b4 b5 b6 b7 : Nat) (rest : List Nat)
    (h0 : b0 < 256) (h1 : b1 < 256) (h2 : b2 < 256) (h3 : b3 < 256)
    (h4 : b4 < 256) (h5 : b5 < 256) (h6 : b6 < 256) (h7 : b7 < 256) :
    read64be (b0 :: b1 :: b2 :: b3 :: b4 :: b5 :: b6 :: b7 :: rest)
      = some (b0 * 2 ^ 56 + b1 * 2 ^ 48 + b2 * 2 ^ 40 + b3 * 2 ^ 32 + b4 * 2 ^ 24
          + b5 * 2 ^ 16 + b6 * 2 ^ 8 + b7) := by
  simp only [read64be, Nat.shiftLeft_eq, Option.some.injEq]
  rw [Nat.mod_eq_of_lt (show b0 * 2 ^ 56 < 2 ^ 64 by omega),
    Nat.mod_eq_of_lt (show b1 * 2 ^ 48 < 2 ^ 64 by omega),
    Nat.mod_eq_of_lt (show b2 * 2 ^ 40 < 2 ^ 64 by omega),
    Nat.mod_eq_of_lt (show b3 * 2 ^ 32 < 2 ^ 64 by omega),
    Nat.mod_eq_of_lt (show b4 * 2 ^ 24 < 2 ^ 64 by omega),
    Nat.mod_eq_of_lt (show b5 * 2 ^ 16 < 2 ^ 64 by omega),
    Nat.mod_eq_of_lt (show b6 * 2 ^ 8 < 2 ^ 64 by omega)]
  have e1 : b0 * 2 ^ 56 ||| b1 * 2 ^ 48 = (b0 * 2 ^ 8 + b1) * 2 ^ 48 := by
    rw [or_eq_add_of_lt 56 b0 _ (by omega)]; omega
  have e2 : (b0 * 2 ^ 8 + b1) * 2 ^ 48 ||| b2 * 2 ^ 40
      = (b0 * 2 ^ 16 + b1 * 2 ^ 8 + b2) * 2 ^ 40 := by
    rw [or_eq_add_of_lt 48 _ _ (by omega)]; omega
  have e3 : (b0 * 2 ^ 16 + b1 * 2 ^ 8 + b2) * 2 ^ 40 ||| b3 * 2 ^ 32
      = (b0 * 2 ^ 24 + b1 * 2 ^ 16 + b2 * 2 ^ 8 + b3) * 2 ^ 32 := by
    rw [or_eq_add_of_lt 40 _ _ (by omega)]; omega
  have e4 : (b0 * 2 ^ 24 + b1 * 2 ^ 16 + b2 * 2 ^ 8 + b3) * 2 ^ 32 ||| b4 * 2 ^ 24
      = (b0 * 2 ^ 32 + b1 * 2 ^ 24 + b2 * 2 ^ 16 + b3 * 2 ^ 8 + b4) * 2 ^ 24 := by
    rw [or_eq_add_of_lt 32 _ _ (by omega)]; omega
  have e5 : (b0 * 2 ^ 32 + b1 * 2 ^ 24 + b2 * 2 ^ 16 + b3 * 2 ^ 8 + b4) * 2 ^ 24
        ||| b5 * 2 ^ 16
      = (b0 * 2 ^ 40 + b1 * 2 ^ 32 + b2 * 2 ^ 24 + b3 * 2 ^ 16 + b4 * 2 ^ 8 + b5)
          * 2 ^ 16 := by
    rw [or_eq_add_of_lt 24 _ _ (by omega)]; omega
  have e6 : (b0 * 2 ^ 40 + b1 * 2 ^ 32 + b2 * 2 ^ 24 + b3 * 2 ^ 16 + b4 * 2 ^ 8 + b5)
          * 2 ^ 16 ||| b6 * 2 ^ 8
      = (b0 * 2 ^ 48 + b1 * 2 ^ 40 + b2 * 2 ^ 32 + b3 * 2 ^ 24 + b4 * 2 ^ 16 + b5 * 2 ^ 8
          + b6) * 2 ^ 8 := by
    rw [or_eq_add_of_lt 16 _ _ (by omega)]; omega
  rw [e1, e2, e3, e4, e5, e6, or_eq_add_of_lt 8 _ _ (by omega)]
  omega

/-- C19: `read64be` returns the big-endian value
`b0*2^56 + b1*2^48 + b2*2^40 + b3*2^32 + b4*2^24 + b5*2^16 + b6*2^8 + b7` of the
eight bytes it is pointed at; the value is below `2^64`, distinct byte
sequences have distinct values, and reading the big-endian bytes of a 64-bit
number gives the number back.  In the ".zdebug" branch the constructor passes
to `do_uncompress` this value of payload bytes 4 to 11 as the size and the
payload from byte 12 onward as the stream. -/
theorem read64be_big_endian :
    (∀ (b0 b1 b2 b3 b4 b5 b6 b7 : Nat) (rest : List Nat),
      b0 < 256 → b1 < 256 → b2 < 256 → b3 < 256 → b4 < 256 → b5 < 256 → b6 < 256 →
      b7 < 256 →
      read64be (b0 :: b1 :: b2 :: b3 :: b4 :: b5 :: b6 :: b7 :: rest)
        = some (b0 * 2 ^ 56 + b1 * 2 ^ 48 + b2 * 2 ^ 40 + b3 * 2 ^ 32 + b4 * 2 ^ 24
            + b5 * 2 ^ 16 + b6 * 2 ^ 8 + b7) ∧
      b0 * 2 ^ 56 + b1 * 2 ^ 48 + b2 * 2 ^ 40 + b3 * 2 ^ 32 + b4 * 2 ^ 24
            + b5 * 2 ^ 16 + b6 * 2 ^ 8 + b7 < 2 ^ 64) ∧
    (∀ (b0 b1 b2 b3 b4 b5 b6 b7 c0 c1 c2 c3 c4 c5 c6 c7 : Nat),
      b0 < 256 → b1 < 256 → b2 < 256 → b3 < 256 → b4 < 256 → b5 < 256 → b6 < 256 →
      b7 < 256 →
      c0 < 256 → c1 < 256 → c2 < 256 → c3 < 256 → c4 < 256 → c5 < 256 → c6 < 256 →
      c7 < 256 →
      read64be [b0, b1, b2, b3, b4, b5, b6, b7] = read64be [c0, c1, c2, c3, c4, c5, c6, c7] →
      [b0, b1, b2, b3, b4, b5, b6, b7] = [c0, c1, c2, c3, c4, c5, c6, c7]) ∧
    (∀ n : Nat, n < 2 ^ 64 →
      read64be [n / 2 ^ 56 % 256, n / 2 ^ 48 % 256, n / 2 ^ 40 % 256, n / 2 ^ 32 % 256,
        n / 2 ^ 24 % 256, n / 2 ^ 16 % 256, n / 2 ^ 8 % 256, n % 256] = some n) ∧
    (∀ (k : Consts) (lay : ChdrLayout) (alloc : Allocator) (u : Codec) (init : InputSection)
      (shdr : ElfShdr)
      (name : String) (idx : Nat) (b0 b1 b2 b3 b4 b5 b6 b7 : Nat) (stream : List Nat),
      is_zdebug name = true → stream ≠ [] →
      b0 < 256 → b1 < 256 → b2 < 256 → b3 < 256 → b4 < 256 → b5 < 256 → b6 < 256 →
      b7 < 256 →
      InputSection_ctor k lay alloc u init
          (ZLIB ++ [b0, b1, b2, b3, b4, b5, b6, b7] ++ stream) shdr name idx
        = some ((do_uncompress alloc u stream
            (b0 * 2 ^ 56 + b1 * 2 ^ 48 + b2 * 2 ^ 40 + b3 * 2 ^ 32 + b4 * 2 ^ 24
              + b5 * 2 ^ 16 + b6 * 2 ^ 8 + b7)).map (fun c =>
            { init with shdr := shdr, name := name, section_idx := idx, contents := c }))) := by
  refine ⟨?_, ?_, ?_, ?_⟩
  · intro b0 b1 b2 b3 b4 b5 b6 b7 rest h0 h1 h2 h3 h4 h5 h6 h7
    exact ⟨read64be_value b0 b1 b2 b3 b4 b5 b6 b7 rest h0 h1 h2 h3 h4 h5 h6 h7, by omega⟩
  · intro b0 b1 b2 b3 b4 b5 b6 b7 c0 c1 c2 c3 c4 c5 c6 c7
      h0 h1 h2 h3 h4 h5 h6 h7 g0 g1 g2 g3 g4 g5 g6 g7 h
    rw [read64be_value b0 b1 b2 b3 b4 b5 b6 b7 [] h0 h1 h2 h3 h4 h5 h6 h7,
      read64be_value c0 c1 c2 c3 c4 c5 c6 c7 [] g0 g1 g2 g3 g4 g5 g6 g7,
      Option.some.injEq] at h
    have : b0 = c0 ∧ b1 = c1 ∧ b2 = c2 ∧ b3 = c3 ∧ b4 = c4 ∧ b5 = c5 ∧ b6 = c6 ∧ b7 = c7 := by
      omega
    obtain ⟨rfl, rfl, rfl, rfl, rfl, rfl, rfl, rfl⟩ := this
    rfl
  · intro n hn
    rw [read64be_value _ _ _ _ _ _ _ _ [] (Nat.mod_lt _ (by decide)) (Nat.mod_lt _ (by decide))
      (Nat.mod_lt _ (by decide)) (Nat.mod_lt _ (by decide)) (Nat.mod_lt _ (by decide))
      (Nat.mod_lt _ (by decide)) (Nat.mod_lt _ (by decide)) (Nat.mod_lt _ (by decide)),
      Option.some.injEq]
    omega
  · intro k lay alloc u init shdr name idx b0 b1 b2 b3 b4 b5 b6 b7 stream hz hs
      h0 h1 h2 h3 h4 h5 h6 h7
    have hlen : 0 < stream.length := List.length_pos.mpr hs
    have hd : List.drop 12 (ZLIB ++ [b0, b1, b2, b3, b4, b5, b6, b7] ++ stream) = stream := by
      simp [ZLIB]
    have hr := read64be_value b0 b1 b2 b3 b4 b5 b6 b7 stream h0 h1 h2 h3 h4 h5 h6 h7
    have := @ctor_zdebug k lay alloc u init (ZLIB ++ [b0, b1, b2, b3, b4, b5, b6, b7] ++ stream)
      shdr name idx _ hz (by simp [ZLIB]) (by simp [ZLIB]; omega) (by simpa [ZLIB] using hr)
    rw [hd] at this
    exact this

/-- Witness for C19: the bytes 0 0 0 0 0 0 1 2 read as 258, and a ".zdebug"
payload with that size field hands 258 and the stream 9 to `do_uncompress`. -/
theorem read64be_big_endian_witness :
    read64be [0, 0, 0, 0, 0, 0, 1, 2] = some 258 ∧
    InputSection_ctor elfConsts elf64Chdr sampleAlloc (sampleCodec id) sampleInit
        [90, 76, 73, 66, 0, 0, 0, 0, 0, 0, 1, 2, 9]
        { sh_type := 1, sh_flags := 0, sh_size := 13, sh_offset := 0 } ".zdebug_info" 4
      = some ((do_uncompress sampleAlloc (sampleCodec id) [9] 258).map (fun c =>
          { sampleInit with
            shdr := { sh_type := 1, sh_flags := 0, sh_size := 13, sh_offset := 0 }
            name := ".zdebug_info", section_idx := 4, contents := c })) :=
  ⟨(read64be_big_endian.1 0 0 0 0 0 0 1 2 [] (by decide) (by decide) (by decide) (by decide)
      (by decide) (by decide) (by decide) (by decide)).1,
   read64be_big_endian.2.2.2 elfConsts elf64Chdr sampleAlloc (sampleCodec id) sampleInit
      { sh_type := 1, sh_flags := 0, sh_size := 13, sh_offset := 0 } ".zdebug_info" 4
      0 0 0 0 0 0 1 2 [9] (by decide) (by decide) (by decide) (by decide) (by decide)
      (by decide) (by decide) (by decide) (by decide) (by decide)⟩

/-! ## What `dispatch` leaves alone -/

theorem dispatch_frame (k : Consts) (st : State) (table : Table) (rel_type i : Nat)
    (rel : ElfRel) (p : Nat) (sym : Symbol)
    (ht : target st i = some (rel, p, sym))
    (hi : i < st.sec.rel_types.length) :
    ∃ st', dispatch k st table rel_type i = some st' ∧
      (∃ l, st'.sec = { st.sec with rel_types := l } ∧
        (l = st.sec.rel_types ∨ ∃ v, l = st.sec.rel_types.set i v)) ∧
      st'.file.symbols = st.file.symbols ∧
      st'.syms.length = st.syms.length := by
  have hc := tableLookup_cell k st.ctx sym table
  generalize table (spec_mode st.ctx.arg) (spec_class k sym) = a at hc
  rw [dispatch_of_target ht hc]
  have herr : ∃ st', some (report st rel p) = some st' ∧
      (∃ l, st'.sec = { st.sec with rel_types := l } ∧
        (l = st.sec.rel_types ∨ ∃ v, l = st.sec.rel_types.set i v)) ∧
      st'.file.symbols = st.file.symbols ∧
      st'.syms.length = st.syms.length :=
    ⟨_, rfl, ⟨_, rfl, Or.inl rfl⟩, rfl, rfl⟩
  cases a with
  | NONE =>
    refine ⟨{ st with sec := { st.sec with rel_types := st.sec.rel_types.set i rel_type } },
      ?_, ⟨_, rfl, Or.inr ⟨_, rfl⟩⟩, rfl, rfl⟩
    simp [dispatch_switch, set_rel_type, hi]
  | ERROR => exact herr
  | COPYREL =>
    cases hz : st.ctx.arg.z_copyreloc with
    | false =>
      simp only [dispatch_switch, hz, Bool.not_false, if_true]
      exact herr
    | true =>
      by_cases hv : sym.st_visibility = k.STV_PROTECTED
      · refine ⟨{ or_flags { st with ctx := Error st.ctx (Diag.copyrel_protected p) }
            p sym k.NEEDS_COPYREL with
          sec := { st.sec with rel_types := st.sec.rel_types.set i rel_type } },
          ?_, ⟨_, rfl, Or.inr ⟨_, rfl⟩⟩, rfl, by simp [or_flags]⟩
        simp [dispatch_switch, hz, hv, set_rel_type, or_flags, hi]
      · refine ⟨{ or_flags st p sym k.NEEDS_COPYREL with
          sec := { st.sec with rel_types := st.sec.rel_types.set i rel_type } },
          ?_, ⟨_, rfl, Or.inr ⟨_, rfl⟩⟩, rfl, by simp [or_flags]⟩
        simp [dispatch_switch, hz, hv, set_rel_type, or_flags, hi]
  | PLT =>
    refine ⟨{ or_flags st p sym k.NEEDS_PLT with
      sec := { st.sec with rel_types := st.sec.rel_types.set i rel_type } },
      ?_, ⟨_, rfl, Or.inr ⟨_, rfl⟩⟩, rfl, by simp [or_flags]⟩
    simp [dispatch_switch, set_rel_type, or_flags, hi]
  | DYNREL =>
    cases hw : is_readonly k st.sec with
    | true =>
      simp only [dispatch_switch, hw, if_true]
      exact herr
    | false =>
      refine ⟨inc_num_dynrel { or_flags st p sym k.NEEDS_DYNSYM with
        sec := { st.sec with rel_types := st.sec.rel_types.set i k.R_DYN } },
        ?_, ⟨_, rfl, Or.inr ⟨_, rfl⟩⟩, rfl, by simp [inc_num_dynrel, or_flags]⟩
      simp [dispatch_switch, hw, set_rel_type, or_flags, inc_num_dynrel, hi]
  | BASEREL =>
    cases hw : is_readonly k st.sec with
    | true =>
      simp only [dispatch_switch, hw, if_true]
      exact herr
    | false =>
      refine ⟨inc_num_dynrel { st with
        sec := { st.sec with rel_types := st.sec.rel_types.set i k.R_BASEREL } },
        ?_, ⟨_, rfl, Or.inr ⟨_, rfl⟩⟩, rfl, rfl⟩
      simp [dispatch_switch, hw, set_rel_type, inc_num_dynrel, hi]

theorem resolvable_iff {st : State} {i : Nat} :
    resolvable st i = true ↔
      i < st.sec.rel_types.length ∧ ∃ rel p sym, target st i = some (rel, p, sym) := by
  simp only [resolvable, Bool.and_eq_true, decide_eq_true_eq, Option.isSome_iff_exists,
    Prod.exists]

theorem dispatch_step (k : Consts) (st : State) (table : Table) (rel_type i : Nat)
    (h : resolvable st i = true) :
    ∃ st', dispatch k st table rel_type i = some st' ∧
      st'.sec.rel_types.length = st.sec.rel_types.length ∧
      (∀ j, j ≠ i → st'.sec.rel_types[j]? = st.sec.rel_types[j]?) ∧
      st'.sec.is_alive = st.sec.is_alive ∧ st'.sec.contents = st.sec.contents ∧
      st'.sec.offset = st.sec.offset ∧ st'.sec.rels = st.sec.rels ∧
      (∀ j, resolvable st j = true → resolvable st' j = true) := by
  obtain ⟨hi, rel, p, sym, ht⟩ := resolvable_iff.mp h
  obtain ⟨st', hd, ⟨l, hsec, hl⟩, hsymbols, hlen⟩ :=
    dispatch_frame k st table rel_type i rel p sym ht hi
  have hrt : st'.sec.rel_types = l := by rw [hsec]
  have hlen' : st'.sec.rel_types.length = st.sec.rel_types.length := by
    rw [hrt]
    rcases hl with rfl | ⟨v, rfl⟩ <;> simp
  refine ⟨st', hd, hlen', ?_, by rw [hsec], by rw [hsec], by rw [hsec], by rw [hsec], ?_⟩
  · intro j hj
    rw [hrt]
    rcases hl with rfl | ⟨v, rfl⟩
    · rfl
    · exact List.getElem?_set_ne (Ne.symm hj)
  · intro j hres
    obtain ⟨hj, rel', q, s, htj⟩ := resolvable_iff.mp hres
    have hq : q < st'.syms.length := by
      rw [hlen]
      exact target_ptr_lt htj
    obtain ⟨s', hs'⟩ : ∃ s', st'.syms[q]? = some s' :=
      ⟨_, List.getElem?_eq_getElem hq⟩
    exact resolvable_iff.mpr ⟨by rw [hlen']; exact hj, rel', q, s',
      target_after htj (by rw [hsec]) hsymbols hs'⟩

theorem dispatch_all_frame (k : Consts) (table : Table) (calls : List (Nat × Nat)) :
    ∀ st : State, (∀ c ∈ calls, resolvable st c.2 = true) →
      ∃ st', dispatch_all k table st calls = some st' ∧
        st'.sec.rel_types.length = st.sec.rel_types.length ∧
        st'.sec.rels = st.sec.rels ∧
        (∀ j, (∀ c ∈ calls, c.2 ≠ j) → st'.sec.rel_types[j]? = st.sec.rel_types[j]?) := by
  induction calls with
  | nil => intro st _; exact ⟨st, rfl, rfl, rfl, fun _ _ => rfl⟩
  | cons c rest ih =>
    intro st hall
    obtain ⟨rel_type, i⟩ := c
    obtain ⟨st1, hd, hlen, hfr, _, _, _, hrels, hres⟩ :=
      dispatch_step k st table rel_type i (hall (rel_type, i) (List.mem_cons_self _ _))
    obtain ⟨st', hrun, hlen2, hrels2, hfr2⟩ :=
      ih st1 (fun c hc => hres c.2 (hall c (List.mem_cons_of_mem _ hc)))
    refine ⟨st', by simp only [dispatch_all, hd, hrun], by rw [hlen2, hlen],
      by rw [hrels2, hrels], ?_⟩
    intro j hj
    rw [hfr2 j (fun c hc => hj c (List.mem_cons_of_mem _ hc))]
    exact hfr j (Ne.symm (hj (rel_type, i) (List.mem_cons_self _ _)))

/-- C20: a call of `dispatch` for relocation `i` returns with `rel_types` of the
same length and with the same entry at every index other than `i`, and with the
liveness flag, the contents, the offset and the relocation list of the section
unchanged, whatever the table cell and the outcome.  Hence any run of calls, in
any order, keeps the length of `rel_types` (one entry per relocation, if that
held before) and leaves the entry of every index that is not called again as it
was. -/
theorem dispatch_rel_types_frame (k : Consts) (table : Table) :
    (∀ (st : State) (rel_type i : Nat) (rel : ElfRel) (p : Nat) (sym : Symbol),
      target st i = some (rel, p, sym) → i < st.sec.rel_types.length →
      ∃ st', dispatch k st table rel_type i = some st' ∧
        st'.sec.rel_types.length = st.sec.rel_types.length ∧
        (∀ j, j ≠ i → st'.sec.rel_types[j]? = st.sec.rel_types[j]?) ∧
        st'.sec.is_alive = st.sec.is_alive ∧ st'.sec.contents = st.sec.contents ∧
        st'.sec.offset = st.sec.offset ∧ st'.sec.rels = st.sec.rels) ∧
    (∀ (st : State) (calls : List (Nat × Nat)),
      (∀ c ∈ calls, resolvable st c.2 = true) →
      ∃ st', dispatch_all k table st calls = some st' ∧
        st'.sec.rel_types.length = st.sec.rel_types.length ∧
        st'.sec.rels = st.sec.rels ∧
        (st.sec.rel_types.length = st.sec.rels.length →
          st'.sec.rel_types.length = st'.sec.rels.length) ∧
        (∀ j, (∀ c ∈ calls, c.2 ≠ j) → st'.sec.rel_types[j]? = st.sec.rel_types[j]?)) := by
  constructor
  · intro st rel_type i rel p sym ht hi
    obtain ⟨st', hd, hlen, hfr, h1, h2, h3, h4, _⟩ :=
      dispatch_step k st table rel_type i (resolvable_iff.mpr ⟨hi, rel, p, sym, ht⟩)
    exact ⟨st', hd, hlen, hfr, h1, h2, h3, h4⟩
  · intro st calls hall
    obtain ⟨st', hrun, hlen, hrels, hfr⟩ := dispatch_all_frame k table calls st hall
    exact ⟨st', hrun, hlen, hrels, fun h => by rw [hlen, hrels]; exact h, hfr⟩

/-- Witness for C20: relocation 1 is classified first, then relocation 0 (a
DYNREL cell in a writable section each time); the second call keeps the entry
the first recorded for index 1. -/
theorem dispatch_rel_types_frame_witness :
    ∃ st', dispatch_all elfConsts (constTable Action.DYNREL)
        (sampleState ⟨true, false, true⟩ 0 3) [(7, 1), (7, 0)] = some st' ∧
      st'.sec.rel_types = [3, 3] ∧ st'.sec.rel_types.length = st'.sec.rels.length := by
  obtain ⟨st', h, _, _, hl, _⟩ :=
    (dispatch_rel_types_frame elfConsts (constTable Action.DYNREL)).2
      (sampleState ⟨true, false, true⟩ 0 3) [(7, 1), (7, 0)] (by decide)
  have m : (dispatch_all elfConsts (constTable Action.DYNREL)
      (sampleState ⟨true, false, true⟩ 0 3) [(7, 1), (7, 0)]).map (fun s => s.sec.rel_types)
      = some [3, 3] := rfl
  rw [h] at m
  exact ⟨st', h, Option.some.inj m, hl rfl⟩

end Mold
